import Mathlib

/-!
Verification of the attribute-channel storage engine of the half-edge mesh
(`src/mesh/halfedge/channels.rs`).

The development shallowly embeds the Rust code:

* `GenKey` models a `slotmap` key (`KeyData`): an index plus a generation tag.
* `SlotMapM` models `slotmap::SlotMap`: a vector of versioned slots plus a
  free list; removing a slot bumps its version so stale keys are detectable.
* `ChannelM` models `Channel<K, V>`: a `SecondaryMap` (an index-keyed list of
  `(idx, key version, value)` entries, kept sorted by index the way the
  secondary map iterates) plus the channel's default value.
* `ChannelGroupM` models `ChannelGroup<K, V>`: the name bimap plus a slot map
  of `RefCell<Channel>` cells.  A `RefCell` is modelled by an `Int` borrow
  flag exactly as in `std::cell`: `0` unused, `n > 0` shared by `n` readers,
  `-1` mutably borrowed.
* `ErasedGroup` models `Box<dyn DynChannelGroup>`: the concrete group
  together with its runtime type tags; `ErasedGroup.downcast` models
  `Any::downcast_ref::<ChannelGroup<K, V>>`, succeeding exactly when the
  requested tag pair matches the erased instantiation.
* `MeshChannelsM` models `MeshChannels`, a tag-pair-keyed association list of
  erased groups.

Operations that can panic in Rust (`unreachable!` in `downcast`, `RefCell`
`borrow`/`borrow_mut`, slot map indexing, `unwrap`) are modelled with the
`MRes` result type whose `panicked` constructor marks a process abort, kept
distinct from value-level `err` results.
-/

/-- Model of `f32` values.  Every numeric value appearing in this development
(0, 1, 0.25, …) is exactly representable, so the rationals carry them
faithfully. -/
abbrev F32 := Rat

/-- Model of `glam::Vec2`. -/
structure Vec2M where
  x : F32
  y : F32
deriving DecidableEq

/-- Model of `glam::Vec3`. -/
structure Vec3M where
  x : F32
  y : F32
  z : F32
deriving DecidableEq

/-- Model of `glam::Vec4`. -/
structure Vec4M where
  x : F32
  y : F32
  z : F32
  w : F32
deriving DecidableEq

/-- `ChannelKeyType` from channels.rs: the runtime tag of a key family. -/
inductive ChannelKeyType where
  | VertexId
  | FaceId
  | HalfEdgeId
deriving DecidableEq

/-- `ChannelValueType` from channels.rs: the runtime tag of a value type. -/
inductive ChannelValueType where
  | Vec2
  | Vec3
  | Vec4
  | f32
  | bool
deriving DecidableEq

/-- The Lean carrier of each `ChannelValueType` tag. -/
def ValueT : ChannelValueType → Type
  | .Vec2 => Vec2M
  | .Vec3 => Vec3M
  | .Vec4 => Vec4M
  | .f32 => F32
  | .bool => Bool

instance (v : ChannelValueType) : DecidableEq (ValueT v) := by
  cases v <;> dsimp [ValueT] <;> infer_instance

/-- `V::default()` for each supported value type (`glam` vectors default to
zero, `f32` to `0.0`, `bool` to `false`). -/
def ValueT.dflt : (v : ChannelValueType) → ValueT v
  | .Vec2 => ⟨0, 0⟩
  | .Vec3 => ⟨0, 0, 0⟩
  | .Vec4 => ⟨0, 0, 0, 0⟩
  | .f32 => (0 : F32)
  | .bool => false

/-- Model of a `slotmap` key (`KeyData`): slot index plus generation.  In the
crate both fields are `u32` and `as_ffi` packs them as
`version << 32 | idx`. -/
structure GenKey where
  idx : Nat
  version : Nat
deriving DecidableEq

/-- One slot of a slot map: its current version and, when occupied, a value.
As in the crate, versions only ever increase; an occupied slot holds the
version its key was handed out with. -/
structure SlotM (α : Type) where
  version : Nat
  value : Option α
deriving DecidableEq

/-- Model of `slotmap::SlotMap`: versioned slots plus a free list of vacant
slot indices. -/
structure SlotMapM (α : Type) where
  slots : List (SlotM α)
  free : List Nat
deriving DecidableEq

/-- The empty slot map (`SlotMap::with_key()`). -/
def SlotMapM.empty : SlotMapM α := ⟨[], []⟩

/-- `SlotMap::insert`: reuse the head of the free list, bumping the slot's
version, or append a fresh slot.  Returns the new key and map. -/
def SlotMapM.insert (m : SlotMapM α) (a : α) : GenKey × SlotMapM α :=
  match m.free with
  | [] => (⟨m.slots.length, 1⟩, ⟨m.slots ++ [⟨1, some a⟩], []⟩)
  | i :: rest =>
    match m.slots[i]? with
    | some s =>
      (⟨i, s.version + 1⟩, ⟨m.slots.set i ⟨s.version + 1, some a⟩, rest⟩)
    | none => (⟨m.slots.length, 1⟩, ⟨m.slots ++ [⟨1, some a⟩], rest⟩)

/-- `SlotMap::get`: the slot at the key's index must carry exactly the key's
version. -/
def SlotMapM.get (m : SlotMapM α) (k : GenKey) : Option α :=
  match m.slots[k.idx]? with
  | some s => if s.version = k.version then s.value else none
  | none => none

/-- `SlotMap::remove`: on success the slot's version is bumped (making every
outstanding key to it stale) and its index joins the free list. -/
def SlotMapM.remove (m : SlotMapM α) (k : GenKey) : Option (α × SlotMapM α) :=
  match m.slots[k.idx]? with
  | some s =>
    if s.version = k.version then
      match s.value with
      | some a => some (a, ⟨m.slots.set k.idx ⟨s.version + 1, none⟩, k.idx :: m.free⟩)
      | none => none
    else none
  | none => none

/-- Update the value stored under a live key, leaving the version untouched
(models mutating through a reference obtained from the slot map). -/
def SlotMapM.modify (m : SlotMapM α) (k : GenKey) (f : α → α) : SlotMapM α :=
  match m.slots[k.idx]? with
  | some s =>
    if s.version = k.version then
      ⟨m.slots.set k.idx ⟨s.version, s.value.map f⟩, m.free⟩
    else m
  | none => m

/-- Model of `Channel<K, V>`: the `SecondaryMap` entries as
`(slot idx, key version, value)` triples kept sorted by index (the secondary
map iterates in index order), plus the channel's default value. -/
structure ChannelM (V : Type) where
  inner : List (Nat × Nat × V)
  dflt : V
deriving DecidableEq

/-- `Channel::default()`: no entries, default value `d`. -/
def ChannelM.empty (d : V) : ChannelM V := ⟨[], d⟩

/-- `SecondaryMap::get` (hence `Channel::get`): an entry exists for the key's
index and carries exactly the key's version. -/
def ChannelM.get (c : ChannelM V) (k : GenKey) : Option V :=
  match c.inner.find? (fun e => e.1 = k.idx) with
  | some e => if e.2.1 = k.version then some e.2.2 else none
  | none => none

/-- `Index<K> for Channel`: `self.inner.get(index).unwrap_or(&self.default)`. -/
def ChannelM.index (c : ChannelM V) (k : GenKey) : V :=
  (c.get k).getD c.dflt

/-- `Channel::set`: `*self.inner.get_mut(id)? = val` — succeeds exactly when
the secondary map already holds an entry for this key, replacing its value. -/
def ChannelM.set (c : ChannelM V) (k : GenKey) (val : V) : Option (ChannelM V) :=
  if (c.get k).isSome then
    some ⟨c.inner.map (fun e => if e.1 = k.idx then (e.1, k.version, val) else e), c.dflt⟩
  else none

/-- Insert an entry into the index-sorted entry list. -/
def ChannelM.insertEntry (e : Nat × Nat × V) : List (Nat × Nat × V) → List (Nat × Nat × V)
  | [] => [e]
  | x :: xs => if e.1 < x.1 then e :: x :: xs else x :: ChannelM.insertEntry e xs

/-- `IndexMut<K> for Channel` followed by an assignment:
`self.inner.entry(index).expect(..).or_default()` then writing the value.
The secondary map's `entry` vivifies a vacant or older-versioned entry and
fails (the `expect` panics, modelled as `none`) on a key staler than the
stored entry. -/
def ChannelM.indexMutSet (c : ChannelM V) (k : GenKey) (val : V) : Option (ChannelM V) :=
  match c.inner.find? (fun e => e.1 = k.idx) with
  | some e =>
    if e.2.1 ≤ k.version then
      some ⟨c.inner.map (fun e' => if e'.1 = k.idx then (e'.1, k.version, val) else e'), c.dflt⟩
    else none
  | none => some ⟨ChannelM.insertEntry (k.idx, k.version, val) c.inner, c.dflt⟩

/-- The error kinds of §7 of the spec, abstracting the `anyhow` messages the
code produces. -/
inductive ChannelError where
  | NotFound
  | AlreadyExists
  | BorrowConflict
  | UnsupportedType
  | TypeMismatch
deriving DecidableEq

/-- Result of a store operation: a value, a value-level (recoverable) error,
or a process abort (`unreachable!`, `RefCell` borrow panic, indexing panic,
`unwrap`). -/
inductive MRes (α : Type) where
  | ok (a : α)
  | err (e : ChannelError)
  | panicked
deriving DecidableEq

/-- A `RefCell` cell: the `std::cell` borrow flag (`0` unused, `n > 0` shared
by `n` readers, `-1` mutably borrowed) and the contents. -/
abbrev RefCellM (α : Type) := Int × α

/-- Model of `ChannelGroup<K, V>`: the `bimap::BiMap<String, ChannelId>` as an
association list and the `SlotMap<RawChannelId, RefCell<Channel>>`.  The key
family `K` only determines the runtime tag; the key carrier is `GenKey`
throughout, so groups are indexed by the value tag alone. -/
structure ChannelGroupM (v : ChannelValueType) where
  channel_names : List (String × GenKey)
  channels : SlotMapM (RefCellM (ChannelM (ValueT v)))
deriving DecidableEq

/-- `ChannelGroup::default()`. -/
def ChannelGroupM.empty (v : ChannelValueType) : ChannelGroupM v := ⟨[], SlotMapM.empty⟩

/-- `BiMap::get_by_left`. -/
def bimapGetLeft (m : List (String × GenKey)) (name : String) : Option GenKey :=
  (m.find? (fun p => p.1 = name)).map (fun p => p.2)

/-- `BiMap::get_by_right`. -/
def bimapGetRight (m : List (String × GenKey)) (id : GenKey) : Option String :=
  (m.find? (fun p => p.2 = id)).map (fun p => p.1)

/-- `BiMap::insert`: displaces any pair sharing the left or the right value. -/
def bimapInsert (m : List (String × GenKey)) (name : String) (id : GenKey) :
    List (String × GenKey) :=
  (name, id) :: m.filter (fun p => p.1 ≠ name ∧ p.2 ≠ id)

/-- `BiMap::remove_by_right`. -/
def bimapRemoveRight (m : List (String × GenKey)) (id : GenKey) : List (String × GenKey) :=
  m.filter (fun p => p.2 ≠ id)

/-- `ChannelGroup::ensure_channel`: return the registered id for `name`, or
allocate a fresh empty channel (an unused `RefCell` around
`Channel::default()`) and register it. -/
def ChannelGroupM.ensure_channel (g : ChannelGroupM v) (name : String) :
    GenKey × ChannelGroupM v :=
  match bimapGetLeft g.channel_names name with
  | some id => (id, g)
  | none =>
    let p := g.channels.insert (0, ChannelM.empty (ValueT.dflt v))
    (p.1, ⟨bimapInsert g.channel_names name p.1, p.2⟩)

/-- `ChannelGroup::create_channel`: bails with the already-exists error when
the name is registered, otherwise defers to `ensure_channel`. -/
def ChannelGroupM.create_channel (g : ChannelGroupM v) (name : String) :
    Except ChannelError (GenKey × ChannelGroupM v) :=
  if (bimapGetLeft g.channel_names name).isSome then
    .error .AlreadyExists
  else
    .ok (g.ensure_channel name)

/-- `ChannelGroup::remove_channel`: deregister the name, then remove the
backing channel, failing with the not-found error when the id is stale. -/
def ChannelGroupM.remove_channel (g : ChannelGroupM v) (id : GenKey) :
    Except ChannelError (ChannelM (ValueT v) × ChannelGroupM v) :=
  let names := bimapRemoveRight g.channel_names id
  match g.channels.remove id with
  | some (cell, channels) => .ok (cell.2, ⟨names, channels⟩)
  | none => .error .NotFound

/-- `ChannelGroup::channel_id`. -/
def ChannelGroupM.channel_id (g : ChannelGroupM v) (name : String) : Option GenKey :=
  bimapGetLeft g.channel_names name

/-- `ChannelGroup::channel_name`. -/
def ChannelGroupM.channel_name (g : ChannelGroupM v) (id : GenKey) : Option String :=
  bimapGetRight g.channel_names id

/-- `ChannelGroup::read_channel`: `try_borrow`, which succeeds exactly when
the cell is not mutably borrowed, incrementing the reader count. -/
def ChannelGroupM.read_channel (g : ChannelGroupM v) (id : GenKey) :
    Except ChannelError (ChannelM (ValueT v) × ChannelGroupM v) :=
  match g.channels.get id with
  | none => .error .NotFound
  | some cell =>
    if 0 ≤ cell.1 then
      .ok (cell.2, ⟨g.channel_names, g.channels.modify id (fun c => (c.1 + 1, c.2))⟩)
    else .error .BorrowConflict

/-- `ChannelGroup::write_channel`: `try_borrow_mut`, which succeeds exactly
when the cell is unused, setting the flag to `-1`. -/
def ChannelGroupM.write_channel (g : ChannelGroupM v) (id : GenKey) :
    Except ChannelError (ChannelM (ValueT v) × ChannelGroupM v) :=
  match g.channels.get id with
  | none => .error .NotFound
  | some cell =>
    if cell.1 = 0 then
      .ok (cell.2, ⟨g.channel_names, g.channels.modify id (fun c => (-1, c.2))⟩)
    else .error .BorrowConflict

/-- Dropping a `Ref` guard: the borrow flag is decremented. -/
def ChannelGroupM.releaseRead (g : ChannelGroupM v) (id : GenKey) : ChannelGroupM v :=
  ⟨g.channel_names, g.channels.modify id (fun c => (c.1 - 1, c.2))⟩

/-- Dropping a `RefMut` guard: the borrow flag is incremented (`-1` back to
`0`). -/
def ChannelGroupM.releaseWrite (g : ChannelGroupM v) (id : GenKey) : ChannelGroupM v :=
  ⟨g.channel_names, g.channels.modify id (fun c => (c.1 + 1, c.2))⟩

/-- `DynChannelGroup::read_channel_dyn`: `self.channels[raw_id].borrow()` —
indexing a missing slot panics, and `borrow` panics (instead of returning an
error) while the cell is mutably borrowed. -/
def ChannelGroupM.read_channel_dyn (g : ChannelGroupM v) (id : GenKey) :
    MRes (ChannelM (ValueT v) × ChannelGroupM v) :=
  match g.channels.get id with
  | none => .panicked
  | some cell =>
    if 0 ≤ cell.1 then
      .ok (cell.2, ⟨g.channel_names, g.channels.modify id (fun c => (c.1 + 1, c.2))⟩)
    else .panicked

/-- `DynChannelGroup::write_channel_dyn`: `self.channels[raw_id].borrow_mut()`
— panics both on a missing slot and on any outstanding borrow. -/
def ChannelGroupM.write_channel_dyn (g : ChannelGroupM v) (id : GenKey) :
    MRes (ChannelM (ValueT v) × ChannelGroupM v) :=
  match g.channels.get id with
  | none => .panicked
  | some cell =>
    if cell.1 = 0 then
      .ok (cell.2, ⟨g.channel_names, g.channels.modify id (fun c => (-1, c.2))⟩)
    else .panicked

/-- `DynChannelGroup::channel_id_dyn`. -/
def ChannelGroupM.channel_id_dyn (g : ChannelGroupM v) (name : String) : Option GenKey :=
  bimapGetLeft g.channel_names name

/-- Decimal digits of the fractional part `rem / den`, with fuel bounding the
digit count (the values in this development are dyadic, so the recursion
terminates well inside the fuel). -/
def fracDigits : Nat → Nat → Nat → String
  | _, _, 0 => ""
  | rem, den, fuel + 1 =>
    if rem = 0 then ""
    else
      toString (rem * 10 / den) ++ fracDigits (rem * 10 % den) den fuel

/-- Rust's `Debug` rendering of an `f32` for the values this development
uses: sign, integer part, a decimal point, and at least one fraction digit
("1.0", "0.25", …), as pinned by the repository's `test_channels` test. -/
def f32Repr (q : F32) : String :=
  let sign := if q < 0 then "-" else ""
  let n := q.num.natAbs
  let ip := n / q.den
  let frac := fracDigits (n % q.den) q.den 64
  sign ++ toString ip ++ "." ++ (if frac = "" then "0" else frac)

/-- Rust's `Debug` rendering of each supported channel value
(`format!("{:?}", v)` in `introspect`), as pinned by `test_channels`:
`Vec3(1.0, 0.0, 0.0)`, `0.25`, `true`, …. -/
def ValueT.render : (v : ChannelValueType) → ValueT v → String
  | .Vec2, a => "Vec2(" ++ f32Repr a.x ++ ", " ++ f32Repr a.y ++ ")"
  | .Vec3, a => "Vec3(" ++ f32Repr a.x ++ ", " ++ f32Repr a.y ++ ", " ++ f32Repr a.z ++ ")"
  | .Vec4, a =>
    "Vec4(" ++ f32Repr a.x ++ ", " ++ f32Repr a.y ++ ", " ++ f32Repr a.z ++ ", "
      ++ f32Repr a.w ++ ")"
  | .f32, a => f32Repr a
  | .bool, a => cond a "true" "false"

/-- `DynChannelGroup::introspect` for one group: for every registered name,
momentarily borrow the channel (`read_channel(..).unwrap()` — the `unwrap`
panics if the channel is mutably borrowed) and render its explicitly-stored
values in iteration (slot-index) order. -/
def ChannelGroupM.introspectGo (g : ChannelGroupM v) :
    List (String × GenKey) → MRes (List (String × List String))
  | [] => .ok []
  | (name, id) :: rest =>
    match g.channels.get id with
    | none => .panicked
    | some cell =>
      if 0 ≤ cell.1 then
        match g.introspectGo rest with
        | .ok tbl => .ok ((name, cell.2.inner.map (fun e => ValueT.render v e.2.2)) :: tbl)
        | r => r
      else .panicked

/-- `DynChannelGroup::introspect` proper: run the traversal over the name
table. -/
def ChannelGroupM.introspect (g : ChannelGroupM v) : MRes (List (String × List String)) :=
  g.introspectGo g.channel_names

/-- Model of `Box<dyn DynChannelGroup>`: the concrete group together with the
runtime tags of the instantiation that was erased. -/
structure ErasedGroup where
  kty : ChannelKeyType
  vty : ChannelValueType
  group : ChannelGroupM vty

/-- `Any::downcast_ref::<ChannelGroup<K, V>>` on the erased box: succeeds and
yields the group exactly when the requested tag pair is the erased one. -/
def ErasedGroup.downcast (e : ErasedGroup) (k : ChannelKeyType) (v : ChannelValueType) :
    Option (ChannelGroupM v) :=
  if h : e.kty = k ∧ e.vty = v then some (h.2 ▸ e.group) else none

/-- Model of `MeshChannels`: the `HashMap` from tag pairs to erased groups as
an association list (updates are in place, so iteration order is the order
groups were first created in). -/
structure MeshChannelsM where
  channels : List ((ChannelKeyType × ChannelValueType) × ErasedGroup)

/-- `HashMap::get`. -/
def mapLookup (m : List ((ChannelKeyType × ChannelValueType) × ErasedGroup))
    (key : ChannelKeyType × ChannelValueType) : Option ErasedGroup :=
  match m with
  | [] => none
  | p :: rest => if p.1 = key then some p.2 else mapLookup rest key

/-- `HashMap` insertion, replacing in place. -/
def mapInsert (m : List ((ChannelKeyType × ChannelValueType) × ErasedGroup))
    (key : ChannelKeyType × ChannelValueType) (e : ErasedGroup) :
    List ((ChannelKeyType × ChannelValueType) × ErasedGroup) :=
  match m with
  | [] => [(key, e)]
  | p :: rest => if p.1 = key then (key, e) :: rest else p :: mapInsert rest key e

/-- `MeshChannels::default()`: the empty store. -/
def MeshChannelsM.default : MeshChannelsM := ⟨[]⟩

/-- The `entry(..).or_insert_with(|| Box::new(ChannelGroup::<K, V>::default()))`
step of `MeshChannels::group_or_default`: the erased entry for the tag pair,
creating it when absent.  Returns the entry and the store containing it. -/
def MeshChannelsM.entryOrDefault (s : MeshChannelsM) (k : ChannelKeyType)
    (v : ChannelValueType) : ErasedGroup × MeshChannelsM :=
  match mapLookup s.channels (k, v) with
  | some e => (e, s)
  | none =>
    let e : ErasedGroup := ⟨k, v, ChannelGroupM.empty v⟩
    (e, ⟨mapInsert s.channels (k, v) e⟩)

/-- `MeshChannels::ensure_channel::<K, V>`: `group_or_default` (downcasting
the erased entry — `unreachable!` on a tag mismatch) then
`ChannelGroup::ensure_channel`. -/
def MeshChannelsM.ensure_channel (s : MeshChannelsM) (k : ChannelKeyType)
    (v : ChannelValueType) (name : String) : MRes (GenKey × MeshChannelsM) :=
  let p := s.entryOrDefault k v
  match p.1.downcast k v with
  | none => .panicked
  | some g =>
    let q := g.ensure_channel name
    .ok (q.1, ⟨mapInsert p.2.channels (k, v) ⟨k, v, q.2⟩⟩)

/-- `MeshChannels::create_channel::<K, V>`: `group_or_default` then
`ChannelGroup::create_channel`. -/
def MeshChannelsM.create_channel (s : MeshChannelsM) (k : ChannelKeyType)
    (v : ChannelValueType) (name : String) : MRes (GenKey × MeshChannelsM) :=
  let p := s.entryOrDefault k v
  match p.1.downcast k v with
  | none => .panicked
  | some g =>
    match g.create_channel name with
    | .error e => .err e
    | .ok q => .ok (q.1, ⟨mapInsert p.2.channels (k, v) ⟨k, v, q.2⟩⟩)

/-- `MeshChannels::remove_channel::<K, V>`: `group_mut` (not-found error when
the group is absent, `unreachable!` on a tag mismatch) then
`ChannelGroup::remove_channel`. -/
def MeshChannelsM.remove_channel (s : MeshChannelsM) (k : ChannelKeyType)
    (v : ChannelValueType) (id : GenKey) : MRes (ChannelM (ValueT v) × MeshChannelsM) :=
  match mapLookup s.channels (k, v) with
  | none => .err .NotFound
  | some e =>
    match e.downcast k v with
    | none => .panicked
    | some g =>
      match g.remove_channel id with
      | .error er => .err er
      | .ok q => .ok (q.1, ⟨mapInsert s.channels (k, v) ⟨k, v, q.2⟩⟩)

/-- `MeshChannels::read_channel::<K, V>`: `group` then
`ChannelGroup::read_channel` (the acquired `Ref` lives in the updated borrow
flag of the returned store). -/
def MeshChannelsM.read_channel (s : MeshChannelsM) (k : ChannelKeyType)
    (v : ChannelValueType) (id : GenKey) : MRes (ChannelM (ValueT v) × MeshChannelsM) :=
  match mapLookup s.channels (k, v) with
  | none => .err .NotFound
  | some e =>
    match e.downcast k v with
    | none => .panicked
    | some g =>
      match g.read_channel id with
      | .error er => .err er
      | .ok q => .ok (q.1, ⟨mapInsert s.channels (k, v) ⟨k, v, q.2⟩⟩)

/-- `MeshChannels::write_channel::<K, V>`. -/
def MeshChannelsM.write_channel (s : MeshChannelsM) (k : ChannelKeyType)
    (v : ChannelValueType) (id : GenKey) : MRes (ChannelM (ValueT v) × MeshChannelsM) :=
  match mapLookup s.channels (k, v) with
  | none => .err .NotFound
  | some e =>
    match e.downcast k v with
    | none => .panicked
    | some g =>
      match g.write_channel id with
      | .error er => .err er
      | .ok q => .ok (q.1, ⟨mapInsert s.channels (k, v) ⟨k, v, q.2⟩⟩)

/-- Mutating a channel through an outstanding `RefMut` obtained from
`write_channel`: the borrow flag is untouched, the contents change.  Routed
through the same downcast entry as every typed access. -/
def MeshChannelsM.modifyChannel (s : MeshChannelsM) (k : ChannelKeyType)
    (v : ChannelValueType) (id : GenKey)
    (f : ChannelM (ValueT v) → ChannelM (ValueT v)) : MeshChannelsM :=
  match mapLookup s.channels (k, v) with
  | none => s
  | some e =>
    match e.downcast k v with
    | none => s
    | some g =>
      ⟨mapInsert s.channels (k, v)
        ⟨k, v, ⟨g.channel_names, g.channels.modify id (fun c => (c.1, f c.2))⟩⟩⟩

/-- Dropping a `Ref` guard on a channel of the `(k, v)` group. -/
def MeshChannelsM.releaseRead (s : MeshChannelsM) (k : ChannelKeyType)
    (v : ChannelValueType) (id : GenKey) : MeshChannelsM :=
  match mapLookup s.channels (k, v) with
  | none => s
  | some e => ⟨mapInsert s.channels (k, v) ⟨e.kty, e.vty, e.group.releaseRead id⟩⟩

/-- Dropping a `RefMut` guard on a channel of the `(k, v)` group. -/
def MeshChannelsM.releaseWrite (s : MeshChannelsM) (k : ChannelKeyType)
    (v : ChannelValueType) (id : GenKey) : MeshChannelsM :=
  match mapLookup s.channels (k, v) with
  | none => s
  | some e => ⟨mapInsert s.channels (k, v) ⟨e.kty, e.vty, e.group.releaseWrite id⟩⟩

/-- `MeshChannels::group_or_default` with the group result discarded: the
entry is created when absent and then downcast at the requested tag pair
(`unreachable!` — modelled as `panicked` — on a mismatch). -/
def MeshChannelsM.group_or_default (s : MeshChannelsM) (k : ChannelKeyType)
    (v : ChannelValueType) : MRes MeshChannelsM :=
  let p := s.entryOrDefault k v
  match p.1.downcast k v with
  | none => .panicked
  | some _ => .ok p.2

/-- `MeshChannels::ensure_group_dyn`: the exhaustive dispatch table over the
closed `(kind, value)` tag cross-product, each arm calling
`group_or_default::<K, V>` at its own static instantiation. -/
def MeshChannelsM.ensure_group_dyn (s : MeshChannelsM) (k : ChannelKeyType)
    (v : ChannelValueType) : MRes MeshChannelsM :=
  match k, v with
  | .VertexId, .Vec2 => MeshChannelsM.group_or_default s .VertexId .Vec2
  | .VertexId, .Vec3 => MeshChannelsM.group_or_default s .VertexId .Vec3
  | .VertexId, .Vec4 => MeshChannelsM.group_or_default s .VertexId .Vec4
  | .VertexId, .f32 => MeshChannelsM.group_or_default s .VertexId .f32
  | .VertexId, .bool => MeshChannelsM.group_or_default s .VertexId .bool
  | .FaceId, .Vec2 => MeshChannelsM.group_or_default s .FaceId .Vec2
  | .FaceId, .Vec3 => MeshChannelsM.group_or_default s .FaceId .Vec3
  | .FaceId, .Vec4 => MeshChannelsM.group_or_default s .FaceId .Vec4
  | .FaceId, .f32 => MeshChannelsM.group_or_default s .FaceId .f32
  | .FaceId, .bool => MeshChannelsM.group_or_default s .FaceId .bool
  | .HalfEdgeId, .Vec2 => MeshChannelsM.group_or_default s .HalfEdgeId .Vec2
  | .HalfEdgeId, .Vec3 => MeshChannelsM.group_or_default s .HalfEdgeId .Vec3
  | .HalfEdgeId, .Vec4 => MeshChannelsM.group_or_default s .HalfEdgeId .Vec4
  | .HalfEdgeId, .f32 => MeshChannelsM.group_or_default s .HalfEdgeId .f32
  | .HalfEdgeId, .bool => MeshChannelsM.group_or_default s .HalfEdgeId .bool

/-- `MeshChannels::ensure_channel_dyn`: `ensure_group_dyn` followed by the
trait-object call `DynChannelGroup::ensure_channel_dyn` on the erased group
(no downcast on this second step). -/
def MeshChannelsM.ensure_channel_dyn (s : MeshChannelsM) (k : ChannelKeyType)
    (v : ChannelValueType) (name : String) : MRes (GenKey × MeshChannelsM) :=
  match s.ensure_group_dyn k v with
  | .ok s1 =>
    match mapLookup s1.channels (k, v) with
    | none => .panicked
    | some e =>
      let q := e.group.ensure_channel name
      .ok (q.1, ⟨mapInsert s1.channels (k, v) ⟨e.kty, e.vty, q.2⟩⟩)
  | .err e => .err e
  | .panicked => .panicked

/-- `MeshChannels::dyn_read_channel_by_name`: a missing `(k, v)` group or a
missing name are value-level errors; the final `read_channel_dyn` call
`borrow`s the cell and panics while the channel is mutably borrowed. -/
def MeshChannelsM.dyn_read_channel_by_name (s : MeshChannelsM) (k : ChannelKeyType)
    (v : ChannelValueType) (name : String) :
    MRes ((Σ w : ChannelValueType, ChannelM (ValueT w)) × MeshChannelsM) :=
  match mapLookup s.channels (k, v) with
  | none => .err .NotFound
  | some e =>
    match e.group.channel_id_dyn name with
    | none => .err .NotFound
    | some id =>
      match e.group.read_channel_dyn id with
      | .ok q => .ok (⟨e.vty, q.1⟩, ⟨mapInsert s.channels (k, v) ⟨e.kty, e.vty, q.2⟩⟩)
      | .err er => .err er
      | .panicked => .panicked

/-- `MeshChannels::dyn_write_channel_by_name`: like the read path, with
`write_channel_dyn` panicking on any outstanding borrow. -/
def MeshChannelsM.dyn_write_channel_by_name (s : MeshChannelsM) (k : ChannelKeyType)
    (v : ChannelValueType) (name : String) :
    MRes ((Σ w : ChannelValueType, ChannelM (ValueT w)) × MeshChannelsM) :=
  match mapLookup s.channels (k, v) with
  | none => .err .NotFound
  | some e =>
    match e.group.channel_id_dyn name with
    | none => .err .NotFound
    | some id =>
      match e.group.write_channel_dyn id with
      | .ok q => .ok (⟨e.vty, q.1⟩, ⟨mapInsert s.channels (k, v) ⟨e.kty, e.vty, q.2⟩⟩)
      | .err er => .err er
      | .panicked => .panicked

/-- `MeshChannels::introspect`: every group's snapshot keyed by its tag
pair. -/
def MeshChannelsM.introspectGo :
    List ((ChannelKeyType × ChannelValueType) × ErasedGroup) →
    MRes (List ((ChannelKeyType × ChannelValueType) × List (String × List String)))
  | [] => .ok []
  | (key, e) :: rest =>
    match e.group.introspect with
    | .ok tbl =>
      match MeshChannelsM.introspectGo rest with
      | .ok out => .ok ((key, tbl) :: out)
      | r => r
    | .err er => .err er
    | .panicked => .panicked

/-- `MeshChannels::introspect` proper. -/
def MeshChannelsM.introspect (s : MeshChannelsM) :
    MRes (List ((ChannelKeyType × ChannelValueType) × List (String × List String))) :=
  MeshChannelsM.introspectGo s.channels

/-- One operation on the channel store, used to close the reachable-state
space of `MeshChannels`. -/
inductive StoreOp where
  | ensure (k : ChannelKeyType) (v : ChannelValueType) (name : String)
  | create (k : ChannelKeyType) (v : ChannelValueType) (name : String)
  | remove (k : ChannelKeyType) (v : ChannelValueType) (id : GenKey)
  | readCh (k : ChannelKeyType) (v : ChannelValueType) (id : GenKey)
  | writeCh (k : ChannelKeyType) (v : ChannelValueType) (id : GenKey)
  | modifyCh (k : ChannelKeyType) (v : ChannelValueType) (id : GenKey)
      (f : ChannelM (ValueT v) → ChannelM (ValueT v))
  | releaseRead (k : ChannelKeyType) (v : ChannelValueType) (id : GenKey)
  | releaseWrite (k : ChannelKeyType) (v : ChannelValueType) (id : GenKey)
  | ensureGroupDyn (k : ChannelKeyType) (v : ChannelValueType)
  | ensureChannelDyn (k : ChannelKeyType) (v : ChannelValueType) (name : String)
  | dynReadByName (k : ChannelKeyType) (v : ChannelValueType) (name : String)
  | dynWriteByName (k : ChannelKeyType) (v : ChannelValueType) (name : String)

/-- The state transition of one store operation (the state reached when the
operation returns without aborting; an aborting or failing operation leaves
the state unchanged). -/
def MeshChannelsM.applyOp (s : MeshChannelsM) : StoreOp → MeshChannelsM
  | .ensure k v name =>
    match s.ensure_channel k v name with
    | .ok q => q.2
    | _ => s
  | .create k v name =>
    match s.create_channel k v name with
    | .ok q => q.2
    | _ => s
  | .remove k v id =>
    match s.remove_channel k v id with
    | .ok q => q.2
    | _ => s
  | .readCh k v id =>
    match s.read_channel k v id with
    | .ok q => q.2
    | _ => s
  | .writeCh k v id =>
    match s.write_channel k v id with
    | .ok q => q.2
    | _ => s
  | .modifyCh k v id f => s.modifyChannel k v id f
  | .releaseRead k v id => s.releaseRead k v id
  | .releaseWrite k v id => s.releaseWrite k v id
  | .ensureGroupDyn k v =>
    match s.ensure_group_dyn k v with
    | .ok s1 => s1
    | _ => s
  | .ensureChannelDyn k v name =>
    match s.ensure_channel_dyn k v name with
    | .ok q => q.2
    | _ => s
  | .dynReadByName k v name =>
    match s.dyn_read_channel_by_name k v name with
    | .ok q => q.2
    | _ => s
  | .dynWriteByName k v name =>
    match s.dyn_write_channel_by_name k v name with
    | .ok q => q.2
    | _ => s

/-- Run a sequence of store operations. -/
def MeshChannelsM.runOps (s : MeshChannelsM) (ops : List StoreOp) : MeshChannelsM :=
  ops.foldl MeshChannelsM.applyOp s

/-- A store state reachable from `MeshChannels::default()` by store
operations. -/
def MeshChannelsM.Reachable (s : MeshChannelsM) : Prop :=
  ∃ ops, s = MeshChannelsM.default.runOps ops

/-- The central invariant: every erased entry's runtime tags coincide with
the tag pair it is stored under. -/
def MeshChannelsM.WellTagged (s : MeshChannelsM) : Prop :=
  ∀ p ∈ s.channels, p.2.kty = p.1.1 ∧ p.2.vty = p.1.2

/-- Modelled from the spec: the foreign (Lua) value representation used by the
typed-value bridge.  The `mlua` runtime and the `lua_stdlib` wrapper types are
not under src/; §4.4 specifies the shapes: numbers pass through, vector types
marshal as fixed-length numeric tuples, identifiers marshal through their
generational (`as_ffi`) encoding, and a wrong foreign shape is a typed
error. -/
inductive LuaValue where
  | number (x : F32)
  | integer (n : Nat)
  | vector (comps : List F32)
  | boolean (b : Bool)
deriving DecidableEq

/-- Modelled from the spec: `f32::cast_to_lua` — numbers pass through. -/
def f32CastToLua (x : F32) : LuaValue := .number x

/-- Modelled from the spec: `f32::cast_from_lua`. -/
def f32CastFromLua : LuaValue → Except ChannelError F32
  | .number x => .ok x
  | _ => .error .TypeMismatch

/-- Modelled from the spec: `bool::cast_to_lua`. -/
def boolCastToLua (b : Bool) : LuaValue := .boolean b

/-- Modelled from the spec: `bool::cast_from_lua`. -/
def boolCastFromLua : LuaValue → Except ChannelError Bool
  | .boolean b => .ok b
  | _ => .error .TypeMismatch

/-- Modelled from the spec: `Vec2::cast_to_lua` — a fixed-length numeric
tuple. -/
def vec2CastToLua (a : Vec2M) : LuaValue := .vector [a.x, a.y]

/-- Modelled from the spec: `Vec2::cast_from_lua`. -/
def vec2CastFromLua : LuaValue → Except ChannelError Vec2M
  | .vector [x, y] => .ok ⟨x, y⟩
  | _ => .error .TypeMismatch

/-- Modelled from the spec: `Vec3::cast_to_lua`. -/
def vec3CastToLua (a : Vec3M) : LuaValue := .vector [a.x, a.y, a.z]

/-- Modelled from the spec: `Vec3::cast_from_lua`. -/
def vec3CastFromLua : LuaValue → Except ChannelError Vec3M
  | .vector [x, y, z] => .ok ⟨x, y, z⟩
  | _ => .error .TypeMismatch

/-- Modelled from the spec: `Vec4::cast_to_lua`. -/
def vec4CastToLua (a : Vec4M) : LuaValue := .vector [a.x, a.y, a.z, a.w]

/-- Modelled from the spec: `Vec4::cast_from_lua`. -/
def vec4CastFromLua : LuaValue → Except ChannelError Vec4M
  | .vector [x, y, z, w] => .ok ⟨x, y, z, w⟩
  | _ => .error .TypeMismatch

/-- Modelled from the spec: an identifier converts to its foreign numeric
handle via the generational encoding — slotmap's `as_ffi`:
`version << 32 | idx` on `u32` fields. -/
def keyCastToLua (k : GenKey) : LuaValue :=
  .integer ((k.version % 2 ^ 32) * 2 ^ 32 + k.idx % 2 ^ 32)

/-- Modelled from the spec: the inverse generational decoding — slotmap's
`from_ffi`: `idx = n & 0xffff_ffff`, `version = n >> 32`. -/
def keyCastFromLua : LuaValue → Except ChannelError GenKey
  | .integer n => .ok ⟨n % 2 ^ 32, n / 2 ^ 32⟩
  | _ => .error .TypeMismatch

/-- `VertexId::cast_to_lua` (a `flat` instance of the generational
encoding). -/
def vertexIdCastToLua : GenKey → LuaValue := keyCastToLua

/-- `VertexId::cast_from_lua`. -/
def vertexIdCastFromLua : LuaValue → Except ChannelError GenKey := keyCastFromLua

/-- `FaceId::cast_to_lua`. -/
def faceIdCastToLua : GenKey → LuaValue := keyCastToLua

/-- `FaceId::cast_from_lua`. -/
def faceIdCastFromLua : LuaValue → Except ChannelError GenKey := keyCastFromLua

/-- `HalfEdgeId::cast_to_lua`. -/
def halfEdgeIdCastToLua : GenKey → LuaValue := keyCastToLua

/-- `HalfEdgeId::cast_from_lua`. -/
def halfEdgeIdCastFromLua : LuaValue → Except ChannelError GenKey := keyCastFromLua

/-- `V::cast_to_lua` dispatched on the runtime value tag. -/
def valueCastToLua : (v : ChannelValueType) → ValueT v → LuaValue
  | .Vec2, a => vec2CastToLua a
  | .Vec3, a => vec3CastToLua a
  | .Vec4, a => vec4CastToLua a
  | .f32, a => f32CastToLua a
  | .bool, a => boolCastToLua a

/-- `V::cast_from_lua` dispatched on the runtime value tag. -/
def valueCastFromLua : (v : ChannelValueType) → LuaValue → Except ChannelError (ValueT v)
  | .Vec2, a => vec2CastFromLua a
  | .Vec3, a => vec3CastFromLua a
  | .Vec4, a => vec4CastFromLua a
  | .f32, a => f32CastFromLua a
  | .bool, a => boolCastFromLua a

/-- `DynChannel::get_lua` from channels.rs: cast the foreign key, then read
through `Index` (`self[key]`), so an id with no explicit entry yields the
channel's default, and convert the value back out. -/
def ChannelM.get_lua (v : ChannelValueType) (c : ChannelM (ValueT v)) (key : LuaValue) :
    Except ChannelError LuaValue :=
  match keyCastFromLua key with
  | .error e => .error e
  | .ok k => .ok (valueCastToLua v (c.index k))

/-- `DynChannel::set_lua` from channels.rs: cast the foreign key and value,
then write through `IndexMut` (vivifying a missing entry); the `expect`
inside `index_mut` panics on a stale key, modelled as `panicked`. -/
def ChannelM.set_lua (v : ChannelValueType) (c : ChannelM (ValueT v)) (key : LuaValue)
    (val : LuaValue) : MRes (ChannelM (ValueT v)) :=
  match keyCastFromLua key with
  | .error e => .err e
  | .ok k =>
    match valueCastFromLua v val with
    | .error e => .err e
    | .ok a =>
      match c.indexMutSet k a with
      | some c' => .ok c'
      | none => .panicked

/-! ### Helper lemmas -/

theorem SlotMapM.get_modify_self (m : SlotMapM α) (k : GenKey) (f : α → α) (a : α)
    (h : m.get k = some a) : (m.modify k f).get k = some (f a) := by
  unfold SlotMapM.get SlotMapM.modify at *
  match hs : m.slots[k.idx]? with
  | none => simp [hs] at h
  | some s =>
    simp only [hs] at h ⊢
    by_cases hv : s.version = k.version
    · have hlt : k.idx < m.slots.length := by
        by_contra hge
        rw [List.getElem?_eq_none (Nat.le_of_not_lt hge)] at hs
        exact Option.noConfusion hs
      simp only [hv, if_true] at h
      simp only [hv, if_true, List.getElem?_set_self hlt, h, Option.map_some]
      simp
    · simp [hv] at h

theorem List.set_self_of_getElem? {α : Type} (l : List α) (i : Nat) (a : α)
    (h : l[i]? = some a) : l.set i a = l := by
  induction l generalizing i with
  | nil => simp at h
  | cons x xs ih =>
    cases i with
    | zero =>
      simp only [List.getElem?_cons_zero, Option.some_inj] at h
      simp [h]
    | succ j =>
      simp only [List.getElem?_cons_succ] at h
      simp [List.set_cons_succ, ih j h]

theorem SlotMapM.get_modify_of_get_none (m : SlotMapM α) (k : GenKey) (f : α → α)
    (h : m.get k = none) : m.modify k f = m := by
  unfold SlotMapM.get SlotMapM.modify at *
  match hs : m.slots[k.idx]? with
  | none => simp [hs]
  | some s =>
    simp only [hs] at h ⊢
    by_cases hv : s.version = k.version
    · simp only [hv, if_true] at h ⊢
      cases m with
      | mk slots free =>
        simp only [SlotMapM.mk.injEq, and_true]
        have hse : (⟨k.version, Option.map f s.value⟩ : SlotM α) = s := by
          cases s with
          | mk ver val =>
            simp only at h hv
            simp [h, hv]
        rw [hse]
        exact List.set_self_of_getElem? slots k.idx s hs
    · simp [hv]

instance {ε α : Type} [DecidableEq ε] [DecidableEq α] : DecidableEq (Except ε α) :=
  fun x y =>
    match x, y with
    | .ok a, .ok b => if h : a = b then .isTrue (by rw [h]) else .isFalse (by simp [h])
    | .error a, .error b => if h : a = b then .isTrue (by rw [h]) else .isFalse (by simp [h])
    | .ok _, .error _ => .isFalse (by simp)
    | .error _, .ok _ => .isFalse (by simp)

/-! ### Claim C3 -/

/-- Claim C3: for every channel and every id never explicitly set, the `get`
of the spec (the `Index` impl, `self[id]`) returns exactly the channel's
default value and never an error; in particular the type-erased `get_lua`
read through a foreign id never explicitly set yields the default, not an
error. -/
theorem C3_get_returns_default {V : Type} (c : ChannelM V) (k : GenKey)
    (v : ChannelValueType) (c2 : ChannelM (ValueT v)) (fk : LuaValue) (k2 : GenKey)
    (h : c.get k = none) (hcast : keyCastFromLua fk = .ok k2) (h2 : c2.get k2 = none) :
    c.index k = c.dflt
      ∧ ChannelM.get_lua v c2 fk = .ok (valueCastToLua v c2.dflt) := by
  constructor
  · simp [ChannelM.index, h]
  · simp [ChannelM.get_lua, hcast, ChannelM.index, h2]

/-- Concrete instance of C3: a never-set id on an empty `f32` channel with
default `5` reads back `5`, and the type-erased read of foreign id `7` on an
empty channel yields the rendered default. -/
theorem C3_get_returns_default_witness :
    (ChannelM.empty (5 : F32)).get ⟨3, 1⟩ = none
    ∧ keyCastFromLua (.integer 7) = .ok ⟨7, 0⟩
    ∧ (ChannelM.empty (ValueT.dflt .f32)).get ⟨7, 0⟩ = none
    ∧ (ChannelM.empty (5 : F32)).index ⟨3, 1⟩ = (5 : F32)
    ∧ ChannelM.get_lua .f32 (ChannelM.empty (ValueT.dflt .f32)) (.integer 7)
        = .ok (valueCastToLua .f32 (ValueT.dflt .f32)) := by
  refine ⟨by decide, by decide, by decide, ?_⟩
  have h := C3_get_returns_default (ChannelM.empty (5 : F32)) ⟨3, 1⟩ .f32
    (ChannelM.empty (ValueT.dflt .f32)) (.integer 7) ⟨7, 0⟩
    (by decide) (by decide) (by decide)
  exact h

/-! ### Claim C4 -/

theorem ChannelM.find?_map_set {V : Type} (l : List (Nat × Nat × V)) (k : GenKey) (val : V)
    (e0 : Nat × Nat × V) (hf : l.find? (fun e => e.1 = k.idx) = some e0) :
    (l.map (fun e => if e.1 = k.idx then (e.1, k.version, val) else e)).find?
      (fun e => e.1 = k.idx) = some (k.idx, k.version, val) := by
  induction l with
  | nil => simp at hf
  | cons x xs ih =>
    by_cases hx : x.1 = k.idx
    · rw [List.map_cons, if_pos hx, List.find?_cons_of_pos _ (by simp [hx])]
      simp [hx]
    · rw [List.find?_cons_of_neg _ (by simp [hx])] at hf
      rw [List.map_cons, if_neg hx, List.find?_cons_of_neg _ (by simp [hx])]
      exact ih hf

/-- Claim C4 is false on the code: `Channel::set` consults only the channel's
own secondary map, not the arena, so a fresh id that is perfectly valid for
the arena generation (here the very first vertex inserted into a fresh arena)
is rejected by `set` on a channel that holds no entry for it. -/
theorem C4_counterexample :
    ((((SlotMapM.empty : SlotMapM Unit).insert ()).2).get
        (((SlotMapM.empty : SlotMapM Unit).insert ()).1)).isSome = true
    ∧ (ChannelM.empty (0 : F32)).set (((SlotMapM.empty : SlotMapM Unit).insert ()).1) 1
        = none := by
  constructor
  · rfl
  · rfl

/-- Claim C4 amended: `Channel::set(id, value)` fails if and only if the
channel's secondary map holds no entry for `id` (the id was never explicitly
stored into this channel); whenever an entry exists, `set` succeeds and
replaces the stored value with the given one. -/
theorem C4_set_fails_iff_no_entry {V : Type} (c : ChannelM V) (k : GenKey) (val : V) :
    (c.set k val = none ↔ c.get k = none)
    ∧ (∀ c', c.set k val = some c' → c'.get k = some val) := by
  constructor
  · unfold ChannelM.set
    by_cases hg : (c.get k).isSome
    · simp [hg, Option.isSome_iff_ne_none.mp hg]
    · simp [hg, Option.not_isSome_iff_eq_none.mp hg]
  · intro c' h
    unfold ChannelM.set at h
    by_cases hg : (c.get k).isSome
    · simp only [hg, if_true, Option.some_inj] at h
      subst h
      unfold ChannelM.get at hg ⊢
      match hf : c.inner.find? (fun e => e.1 = k.idx) with
      | none => rw [hf] at hg; simp at hg
      | some e0 =>
        rw [ChannelM.find?_map_set c.inner k val e0 hf]
        simp
    · simp [hg] at h

/-- Concrete instance of the amended C4: a channel holding an entry for key
`(0, 1)` accepts `set` and the entry's value is replaced. -/
theorem C4_set_fails_iff_no_entry_witness :
    (⟨[(0, 1, (2 : F32))], 0⟩ : ChannelM F32).set ⟨0, 1⟩ 3
      = some ⟨[(0, 1, (3 : F32))], 0⟩
    ∧ (⟨[(0, 1, (3 : F32))], 0⟩ : ChannelM F32).get ⟨0, 1⟩ = some 3 := by
  have hset : (⟨[(0, 1, (2 : F32))], 0⟩ : ChannelM F32).set ⟨0, 1⟩ 3
      = some ⟨[(0, 1, (3 : F32))], 0⟩ := by rfl
  exact ⟨hset,
    (C4_set_fails_iff_no_entry (⟨[(0, 1, (2 : F32))], 0⟩ : ChannelM F32) ⟨0, 1⟩ 3).2 _ hset⟩

/-! ### Claim C9 -/

/-- Claim C9: for every supported element-kind and value-type pair, casting a
native value to its foreign representation and back yields exactly the
original value (identifier bounds are the `u32` ranges of the generational
encoding).  The Lua-side conversions are modelled from §4.4 of the spec since
`lua_stdlib` is not part of the sources. -/
theorem C9_lua_roundtrip (x : F32) (b : Bool) (a2 : Vec2M) (a3 : Vec3M) (a4 : Vec4M)
    (i ver : Nat) (hidx : i < 2 ^ 32) (hver : ver < 2 ^ 32) :
    f32CastFromLua (f32CastToLua x) = .ok x
    ∧ boolCastFromLua (boolCastToLua b) = .ok b
    ∧ vec2CastFromLua (vec2CastToLua a2) = .ok a2
    ∧ vec3CastFromLua (vec3CastToLua a3) = .ok a3
    ∧ vec4CastFromLua (vec4CastToLua a4) = .ok a4
    ∧ vertexIdCastFromLua (vertexIdCastToLua ⟨i, ver⟩) = .ok ⟨i, ver⟩
    ∧ faceIdCastFromLua (faceIdCastToLua ⟨i, ver⟩) = .ok ⟨i, ver⟩
    ∧ halfEdgeIdCastFromLua (halfEdgeIdCastToLua ⟨i, ver⟩) = .ok ⟨i, ver⟩ := by
  have hkey : keyCastFromLua (keyCastToLua ⟨i, ver⟩) = .ok ⟨i, ver⟩ := by
    have h32 : (2 : Nat) ^ 32 = 4294967296 := by norm_num
    rw [h32] at hidx hver
    simp only [keyCastToLua, keyCastFromLua, h32, Except.ok.injEq, GenKey.mk.injEq]
    constructor
    · omega
    · omega
  exact ⟨rfl, rfl, rfl, rfl, rfl, hkey, hkey, hkey⟩

/-- Concrete instance of C9 at in-range values. -/
theorem C9_lua_roundtrip_witness :
    ((3 : Nat) < 2 ^ 32 ∧ (1 : Nat) < 2 ^ 32)
    ∧ (f32CastFromLua (f32CastToLua (1/4 : F32)) = .ok (1/4 : F32)
      ∧ boolCastFromLua (boolCastToLua true) = .ok true
      ∧ vec2CastFromLua (vec2CastToLua ⟨1, 2⟩) = .ok ⟨1, 2⟩
      ∧ vec3CastFromLua (vec3CastToLua ⟨1, 2, 3⟩) = .ok ⟨1, 2, 3⟩
      ∧ vec4CastFromLua (vec4CastToLua ⟨1, 2, 3, 4⟩) = .ok ⟨1, 2, 3, 4⟩
      ∧ vertexIdCastFromLua (vertexIdCastToLua ⟨3, 1⟩) = .ok ⟨3, 1⟩
      ∧ faceIdCastFromLua (faceIdCastToLua ⟨3, 1⟩) = .ok ⟨3, 1⟩
      ∧ halfEdgeIdCastFromLua (halfEdgeIdCastToLua ⟨3, 1⟩) = .ok ⟨3, 1⟩) :=
  ⟨⟨by norm_num, by norm_num⟩,
    C9_lua_roundtrip (1/4) true ⟨1, 2⟩ ⟨1, 2, 3⟩ ⟨1, 2, 3, 4⟩ 3 1
      (by norm_num) (by norm_num)⟩

/-! ### Claim C2 -/

/-- Whether an `Except` result is a success. -/
def exceptOk : Except ChannelError α → Bool
  | .ok _ => true
  | .error _ => false

/-- `n` nested `read_channel` acquisitions on the same channel, all guards
kept alive (`none` as soon as one acquisition fails). -/
def ChannelGroupM.readN : ChannelGroupM v → GenKey → Nat → Option (ChannelGroupM v)
  | g, _, 0 => some g
  | g, id, n + 1 =>
    match g.read_channel id with
    | .ok q => ChannelGroupM.readN q.2 id n
    | .error _ => none

theorem ChannelGroupM.read_channel_ok {v : ChannelValueType} (g : ChannelGroupM v)
    (id : GenKey) (flag : Int) (ch : ChannelM (ValueT v))
    (hget : g.channels.get id = some (flag, ch)) (hpos : 0 ≤ flag) :
    g.read_channel id
      = .ok (ch, ⟨g.channel_names, g.channels.modify id (fun c => (c.1 + 1, c.2))⟩)
    ∧ (g.channels.modify id (fun c => (c.1 + 1, c.2))).get id = some (flag + 1, ch) := by
  constructor
  · unfold ChannelGroupM.read_channel
    rw [hget]
    simp [hpos]
  · exact SlotMapM.get_modify_self _ _ _ _ hget

theorem ChannelGroupM.readN_isSome {v : ChannelValueType} :
    ∀ (n : Nat) (g : ChannelGroupM v) (id : GenKey) (flag : Int) (ch : ChannelM (ValueT v)),
    g.channels.get id = some (flag, ch) → 0 ≤ flag → (g.readN id n).isSome = true := by
  intro n
  induction n with
  | zero => intro g id flag ch h hp; rfl
  | succ m ih =>
    intro g id flag ch h hp
    have hr := ChannelGroupM.read_channel_ok g id flag ch h hp
    unfold ChannelGroupM.readN
    rw [hr.1]
    exact ih _ id (flag + 1) ch hr.2 (by omega)

/-- Claim C2: while a write borrow of a channel is held (`RefCell` flag `-1`),
any further `read_channel` or `write_channel` on it returns the borrow
conflict error; once the write guard is dropped, a new read and a new write
both succeed; any number of simultaneously-held read borrows succeed; and a
write borrow fails exactly while at least one borrow (reader or writer) is
outstanding. -/
theorem C2_borrow_discipline (v : ChannelValueType) (g : ChannelGroupM v) (id : GenKey)
    (flag : Int) (ch : ChannelM (ValueT v))
    (hget : g.channels.get id = some (flag, ch)) :
    (flag = -1 →
      g.read_channel id = .error .BorrowConflict
      ∧ g.write_channel id = .error .BorrowConflict
      ∧ exceptOk ((g.releaseWrite id).read_channel id) = true
      ∧ exceptOk ((g.releaseWrite id).write_channel id) = true)
    ∧ (0 ≤ flag → ∀ n, (g.readN id n).isSome = true)
    ∧ (g.write_channel id = .error .BorrowConflict ↔ flag ≠ 0) := by
  refine ⟨?_, ?_, ?_⟩
  · intro hf
    subst hf
    have hrel : (g.releaseWrite id).channels.get id = some (0, ch) := by
      have := SlotMapM.get_modify_self g.channels id (fun c => (c.1 + 1, c.2)) (-1, ch) hget
      simpa [ChannelGroupM.releaseWrite] using this
    refine ⟨?_, ?_, ?_, ?_⟩
    · unfold ChannelGroupM.read_channel
      rw [hget]
      norm_num
    · unfold ChannelGroupM.write_channel
      rw [hget]
      norm_num
    · unfold ChannelGroupM.read_channel
      rw [hrel]
      norm_num [exceptOk]
    · unfold ChannelGroupM.write_channel
      rw [hrel]
      norm_num [exceptOk]
  · intro hp n
    exact ChannelGroupM.readN_isSome n g id flag ch hget hp
  · unfold ChannelGroupM.write_channel
    rw [hget]
    by_cases hf : flag = 0
    · simp [hf]
    · simp [hf]

/-- Concrete instance of C2 on a freshly created (unborrowed) channel. -/
theorem C2_borrow_discipline_witness :
    (((ChannelGroupM.empty .f32).ensure_channel "sel").2.channels.get ⟨0, 1⟩
      = some (0, ChannelM.empty (ValueT.dflt .f32)))
    ∧ (((ChannelGroupM.empty .f32).ensure_channel "sel").2.readN ⟨0, 1⟩ 3).isSome = true
    ∧ (((ChannelGroupM.empty .f32).ensure_channel "sel").2.write_channel ⟨0, 1⟩
        = .error .BorrowConflict ↔ (0 : Int) ≠ 0) := by
  have hget : ((ChannelGroupM.empty .f32).ensure_channel "sel").2.channels.get ⟨0, 1⟩
      = some (0, ChannelM.empty (ValueT.dflt .f32)) := by rfl
  have h := C2_borrow_discipline .f32 ((ChannelGroupM.empty .f32).ensure_channel "sel").2
    ⟨0, 1⟩ 0 (ChannelM.empty (ValueT.dflt .f32)) hget
  exact ⟨hget, h.2.1 (by norm_num) 3, h.2.2⟩

/-! ### Claim C7 -/

theorem bimapGetLeft_insert_self (m : List (String × GenKey)) (name : String) (id : GenKey) :
    bimapGetLeft (bimapInsert m name id) name = some id := by
  unfold bimapGetLeft bimapInsert
  rw [List.find?_cons_of_pos _ (by simp)]
  rfl

theorem ChannelGroupM.ensure_channel_of_found {v : ChannelValueType} (g : ChannelGroupM v)
    (name : String) (id : GenKey) (h : bimapGetLeft g.channel_names name = some id) :
    g.ensure_channel name = (id, g) := by
  unfold ChannelGroupM.ensure_channel
  rw [h]

theorem ChannelGroupM.ensure_channel_registers {v : ChannelValueType} (g : ChannelGroupM v)
    (name : String) :
    bimapGetLeft (g.ensure_channel name).2.channel_names name
      = some (g.ensure_channel name).1 := by
  unfold ChannelGroupM.ensure_channel
  match h : bimapGetLeft g.channel_names name with
  | some id => simp [h]
  | none => simp [h, bimapGetLeft_insert_self]

/-- Claim C7: `create_channel(name)` fails with AlreadyExists exactly when a
channel with that name already exists in the group; when it succeeds it
behaves identically to `ensure_channel`, and a subsequent `ensure_channel`
with the same name returns the id `create_channel` returned (without changing
the group again). -/
theorem C7_create_channel (v : ChannelValueType) (g : ChannelGroupM v) (name : String) :
    (g.create_channel name = .error .AlreadyExists ↔ (g.channel_id name).isSome = true)
    ∧ (∀ id g', g.create_channel name = .ok (id, g') →
        g.ensure_channel name = (id, g')
        ∧ g'.ensure_channel name = (id, g')
        ∧ g'.channel_id name = some id) := by
  constructor
  · unfold ChannelGroupM.create_channel ChannelGroupM.channel_id
    by_cases hn : (bimapGetLeft g.channel_names name).isSome
    · simp [hn]
    · simp [hn]
  · intro id g' h
    unfold ChannelGroupM.create_channel at h
    by_cases hn : (bimapGetLeft g.channel_names name).isSome
    · simp [hn] at h
    · simp only [hn, if_false, Bool.false_eq_true, Except.ok.injEq] at h
      have hens : g.ensure_channel name = (id, g') := by
        cases hp : g.ensure_channel name with
        | mk a b =>
          rw [hp] at h
          simp only [Prod.mk.injEq] at h ⊢
          exact ⟨h.1, h.2⟩
      have hreg : bimapGetLeft g'.channel_names name = some id := by
        have := ChannelGroupM.ensure_channel_registers g name
        rw [hens] at this
        exact this
      exact ⟨hens, ChannelGroupM.ensure_channel_of_found g' name id hreg,
        by unfold ChannelGroupM.channel_id; exact hreg⟩

/-- Concrete instance of C7: creating "size" in an empty group succeeds, and
ensuring it afterwards returns the same id. -/
theorem C7_create_channel_witness :
    ((ChannelGroupM.empty .f32).create_channel "size" = .error .AlreadyExists
      ↔ ((ChannelGroupM.empty .f32).channel_id "size").isSome = true)
    ∧ ((ChannelGroupM.empty .f32).create_channel "size"
        = .ok (⟨0, 1⟩, ((ChannelGroupM.empty .f32).ensure_channel "size").2))
    ∧ (((ChannelGroupM.empty .f32).ensure_channel "size").2.ensure_channel "size"
        = (⟨0, 1⟩, ((ChannelGroupM.empty .f32).ensure_channel "size").2)) := by
  have h := C7_create_channel .f32 (ChannelGroupM.empty .f32) "size"
  have hok : (ChannelGroupM.empty .f32).create_channel "size"
      = .ok (⟨0, 1⟩, ((ChannelGroupM.empty .f32).ensure_channel "size").2) := by rfl
  exact ⟨h.1, hok, (h.2 _ _ hok).2.1⟩

/-! ### Claim C6 -/

theorem ErasedGroup.downcast_mk (k : ChannelKeyType) (v : ChannelValueType)
    (g : ChannelGroupM v) : (⟨k, v, g⟩ : ErasedGroup).downcast k v = some g := by
  unfold ErasedGroup.downcast
  rw [dif_pos ⟨rfl, rfl⟩]

theorem mapLookup_mem (m : List ((ChannelKeyType × ChannelValueType) × ErasedGroup))
    (key : ChannelKeyType × ChannelValueType) (e : ErasedGroup)
    (h : mapLookup m key = some e) : (key, e) ∈ m := by
  induction m with
  | nil => simp [mapLookup] at h
  | cons p rest ih =>
    unfold mapLookup at h
    by_cases hp : p.1 = key
    · simp only [hp, if_true, Option.some_inj] at h
      have hpe : p = (key, e) := by
        cases p with
        | mk a b =>
          simp only at hp h
          rw [hp, h]
      rw [hpe]
      exact List.mem_cons_self _ _
    · simp only [hp, if_false] at h
      exact List.mem_cons_of_mem _ (ih h)

theorem mapLookup_mapInsert_self (m : List ((ChannelKeyType × ChannelValueType) × ErasedGroup))
    (key : ChannelKeyType × ChannelValueType) (e : ErasedGroup) :
    mapLookup (mapInsert m key e) key = some e := by
  induction m with
  | nil => simp [mapInsert, mapLookup]
  | cons p rest ih =>
    unfold mapInsert
    by_cases hp : p.1 = key
    · simp [hp, mapLookup]
    · simp only [hp, if_false]
      unfold mapLookup
      simp only [hp, if_false]
      exact ih

theorem mapInsert_self_of_lookup
    (m : List ((ChannelKeyType × ChannelValueType) × ErasedGroup))
    (key : ChannelKeyType × ChannelValueType) (e : ErasedGroup)
    (h : mapLookup m key = some e) : mapInsert m key e = m := by
  induction m with
  | nil => simp [mapLookup] at h
  | cons p rest ih =>
    unfold mapLookup at h
    unfold mapInsert
    by_cases hp : p.1 = key
    · simp only [hp, if_true, Option.some_inj] at h
      simp only [hp, if_true]
      have hpe : (key, e) = p := by
        cases p with
        | mk a b =>
          simp only at hp h
          rw [hp, h]
      rw [hpe]
    · simp only [hp, if_false] at h
      simp only [hp, if_false, ih h]

/-- Claim C6: on any well-tagged store (in particular any reachable one),
`ensure_channel` never fails, and calling it twice in succession with the
same name returns the same channel id both times, the second call leaving the
store untouched. -/
theorem C6_ensure_idempotent (s : MeshChannelsM) (k : ChannelKeyType)
    (v : ChannelValueType) (name : String) (h : s.WellTagged) :
    ∃ id s1, s.ensure_channel k v name = .ok (id, s1)
      ∧ s1.ensure_channel k v name = .ok (id, s1) := by
  unfold MeshChannelsM.ensure_channel MeshChannelsM.entryOrDefault
  cases hl : mapLookup s.channels (k, v) with
  | none =>
    simp only [hl, ErasedGroup.downcast_mk]
    refine ⟨_, _, rfl, ?_⟩
    simp only [mapLookup_mapInsert_self, ErasedGroup.downcast_mk]
    rw [ChannelGroupM.ensure_channel_of_found _ name _
      (ChannelGroupM.ensure_channel_registers (ChannelGroupM.empty v) name)]
    simp only [mapInsert_self_of_lookup _ _ _ (mapLookup_mapInsert_self ..)]
  | some e =>
    have hm := mapLookup_mem _ _ _ hl
    obtain ⟨hk, hv⟩ := h _ hm
    cases e with
    | mk kt vt gr =>
      have hk' : kt = k := hk
      have hv' : vt = v := hv
      subst hk'
      subst hv'
      simp only [hl, ErasedGroup.downcast_mk]
      refine ⟨_, _, rfl, ?_⟩
      simp only [mapLookup_mapInsert_self, ErasedGroup.downcast_mk]
      rw [ChannelGroupM.ensure_channel_of_found _ name _
        (ChannelGroupM.ensure_channel_registers gr name)]
      simp only [mapInsert_self_of_lookup _ _ _ (mapLookup_mapInsert_self ..)]

/-- Concrete instance of C6 starting from the empty (trivially well-tagged)
store. -/
theorem C6_ensure_idempotent_witness :
    MeshChannelsM.default.WellTagged
    ∧ ∃ id s1, MeshChannelsM.default.ensure_channel .VertexId .Vec3 "position"
        = .ok (id, s1)
      ∧ s1.ensure_channel .VertexId .Vec3 "position" = .ok (id, s1) :=
  ⟨fun p hp => absurd hp (List.not_mem_nil p),
    C6_ensure_idempotent MeshChannelsM.default .VertexId .Vec3 "position"
      (fun p hp => absurd hp (List.not_mem_nil p))⟩

/-! ### Claim C5 -/

/-- Claim C5 amended: the lookup failures of the type-erased access path (a
`(kind, value)` group that does not exist, or a name not registered in it)
are value-returned errors propagated unchanged to the caller; but when the
named channel is currently incompatibly borrowed,
`dyn_read_channel_by_name` / `dyn_write_channel_by_name` panic (the borrow is
taken with `RefCell::borrow`/`borrow_mut`, not `try_borrow`), i.e. the
conflict is process-fatal on this path rather than a value-level error. -/
theorem C5_dyn_path_errors (s : MeshChannelsM) (k : ChannelKeyType)
    (v : ChannelValueType) (name : String) :
    (mapLookup s.channels (k, v) = none →
      s.dyn_read_channel_by_name k v name = .err .NotFound
      ∧ s.dyn_write_channel_by_name k v name = .err .NotFound)
    ∧ (∀ e, mapLookup s.channels (k, v) = some e →
        e.group.channel_id_dyn name = none →
        s.dyn_read_channel_by_name k v name = .err .NotFound
        ∧ s.dyn_write_channel_by_name k v name = .err .NotFound)
    ∧ (∀ e id flag ch, mapLookup s.channels (k, v) = some e →
        e.group.channel_id_dyn name = some id →
        e.group.channels.get id = some (flag, ch) →
        (flag < 0 → s.dyn_read_channel_by_name k v name = .panicked)
        ∧ (flag ≠ 0 → s.dyn_write_channel_by_name k v name = .panicked)) := by
  refine ⟨?_, ?_, ?_⟩
  · intro hl
    unfold MeshChannelsM.dyn_read_channel_by_name MeshChannelsM.dyn_write_channel_by_name
    simp [hl]
  · intro e hl hn
    unfold MeshChannelsM.dyn_read_channel_by_name MeshChannelsM.dyn_write_channel_by_name
    simp [hl, hn]
  · intro e id flag ch hl hn hget
    constructor
    · intro hneg
      unfold MeshChannelsM.dyn_read_channel_by_name
      simp only [hl, hn]
      unfold ChannelGroupM.read_channel_dyn
      rw [hget]
      have : ¬(0 ≤ flag) := by omega
      simp [this]
    · intro hnz
      unfold MeshChannelsM.dyn_write_channel_by_name
      simp only [hl, hn]
      unfold ChannelGroupM.write_channel_dyn
      rw [hget]
      simp [hnz]

/-- Concrete instance of the amended C5 error cases on the empty store. -/
theorem C5_dyn_path_errors_witness :
    mapLookup MeshChannelsM.default.channels (.VertexId, .f32) = none
    ∧ MeshChannelsM.default.dyn_read_channel_by_name .VertexId .f32 "sel" = .err .NotFound
    ∧ MeshChannelsM.default.dyn_write_channel_by_name .VertexId .f32 "sel"
        = .err .NotFound := by
  have h := (C5_dyn_path_errors MeshChannelsM.default .VertexId .f32 "sel").1 rfl
  exact ⟨rfl, h.1, h.2⟩

/-- The store after ensuring a `(VertexId, f32)` channel "sel" and taking a
write borrow on it: the channel's `RefCell` flag is `-1`. -/
def c5Store : MeshChannelsM :=
  MeshChannelsM.default.runOps
    [.ensure .VertexId .f32 "sel", .writeCh .VertexId .f32 ⟨0, 1⟩]

/-- Claim C5 is false on the code: with the "sel" channel exclusively
borrowed (flag `-1` in the first conjunct's literal state), the type-erased
access path panics — it does not return a value-level error. -/
theorem C5_counterexample :
    c5Store = ⟨[((.VertexId, .f32),
        ⟨.VertexId, .f32, ⟨[("sel", ⟨0, 1⟩)],
          ⟨[⟨1, some (-1, ChannelM.empty (ValueT.dflt .f32))⟩], []⟩⟩⟩)]⟩
    ∧ c5Store.dyn_read_channel_by_name .VertexId .f32 "sel" = .panicked
    ∧ c5Store.dyn_write_channel_by_name .VertexId .f32 "sel" = .panicked := by
  refine ⟨rfl, rfl, rfl⟩

/-! ### Claim C8 -/

/-- One positional write through the held `RefMut`
(`positions[v] = value` in the test): `index_mut` plus assignment.  On the
fresh keys of the scenario the vivifying insert always succeeds. -/
def c8Set (k : GenKey) (val : Vec3M) (ch : ChannelM (ValueT .Vec3)) :
    ChannelM (ValueT .Vec3) :=
  (ch.indexMutSet k val).getD ch

/-- The store of the introspect scenario: a `(VertexId, Vec3)` channel
"position" created, then — under a write borrow — the first three arena
vertex ids `(0,1)`, `(1,1)`, `(2,1)` set to the three unit vectors in order,
then the borrow released. -/
def c8Store : MeshChannelsM :=
  MeshChannelsM.default.runOps
    [.create .VertexId .Vec3 "position",
     .writeCh .VertexId .Vec3 ⟨0, 1⟩,
     .modifyCh .VertexId .Vec3 ⟨0, 1⟩ (c8Set ⟨0, 1⟩ ⟨1, 0, 0⟩),
     .modifyCh .VertexId .Vec3 ⟨0, 1⟩ (c8Set ⟨1, 1⟩ ⟨0, 1, 0⟩),
     .modifyCh .VertexId .Vec3 ⟨0, 1⟩ (c8Set ⟨2, 1⟩ ⟨0, 0, 1⟩),
     .releaseWrite .VertexId .Vec3 ⟨0, 1⟩]

/-- Claim C8 is false on the literal strings: `introspect` renders values
with `format!("{:?}", v)`, producing `Vec3(1.0, 0.0, 0.0)` (as the
repository's own `test_channels` asserts), not `(1,0,0)`. -/
theorem C8_counterexample :
    c8Store.introspect = .ok [((.VertexId, .Vec3),
      [("position",
        ["Vec3(1.0, 0.0, 0.0)", "Vec3(0.0, 1.0, 0.0)", "Vec3(0.0, 0.0, 1.0)"])])]
    ∧ ["Vec3(1.0, 0.0, 0.0)", "Vec3(0.0, 1.0, 0.0)", "Vec3(0.0, 0.0, 1.0)"]
        ≠ ["(1,0,0)", "(0,1,0)", "(0,0,1)"] := by
  exact ⟨rfl, by decide⟩

/-- Claim C8 amended: after the scenario, `introspect` reports, for the
`(VertexId, Vec3)` group, the mapping `"position" ↦ ["Vec3(1.0, 0.0, 0.0)",
"Vec3(0.0, 1.0, 0.0)", "Vec3(0.0, 0.0, 1.0)"]` — the `Debug` renderings of
exactly the explicitly-stored values, in storage (slot-index) order. -/
theorem C8_introspect_scenario :
    c8Store.introspect = .ok [((.VertexId, .Vec3),
      [("position",
        ["Vec3(1.0, 0.0, 0.0)", "Vec3(0.0, 1.0, 0.0)", "Vec3(0.0, 0.0, 1.0)"])])] := by
  rfl


/-! ### Claim C1 -/

theorem ErasedGroup.downcast_isSome_iff (e : ErasedGroup) (k : ChannelKeyType)
    (v : ChannelValueType) :
    (e.downcast k v).isSome = true ↔ (e.kty = k ∧ e.vty = v) := by
  unfold ErasedGroup.downcast
  by_cases h : e.kty = k ∧ e.vty = v
  · rw [dif_pos h]
    simpa using h
  · rw [dif_neg h]
    simpa using h

theorem WellTagged_mapInsert (m : List ((ChannelKeyType × ChannelValueType) × ErasedGroup))
    (k : ChannelKeyType) (v : ChannelValueType) (e : ErasedGroup)
    (hw : ∀ p ∈ m, p.2.kty = p.1.1 ∧ p.2.vty = p.1.2)
    (hk : e.kty = k) (hv : e.vty = v) :
    ∀ p ∈ mapInsert m (k, v) e, p.2.kty = p.1.1 ∧ p.2.vty = p.1.2 := by
  induction m with
  | nil =>
    intro p hp
    simp only [mapInsert, List.mem_singleton] at hp
    subst hp
    exact ⟨hk, hv⟩
  | cons q rest ih =>
    intro p hp
    unfold mapInsert at hp
    by_cases hq : q.1 = (k, v)
    · simp only [hq, if_true] at hp
      rcases List.mem_cons.mp hp with h1 | h2
      · subst h1
        exact ⟨hk, hv⟩
      · exact hw p (List.mem_cons_of_mem _ h2)
    · simp only [hq, if_false] at hp
      rcases List.mem_cons.mp hp with h1 | h2
      · rw [h1]
        exact hw q (List.mem_cons_self _ _)
      · exact ih (fun r hr => hw r (List.mem_cons_of_mem _ hr)) p h2

theorem MeshChannelsM.entryOrDefault_spec (s : MeshChannelsM) (k : ChannelKeyType)
    (v : ChannelValueType) (hw : s.WellTagged) :
    (s.entryOrDefault k v).1.kty = k ∧ (s.entryOrDefault k v).1.vty = v
    ∧ (s.entryOrDefault k v).2.WellTagged := by
  unfold MeshChannelsM.entryOrDefault
  cases hl : mapLookup s.channels (k, v) with
  | none =>
    exact ⟨rfl, rfl, WellTagged_mapInsert s.channels k v _ hw rfl rfl⟩
  | some e =>
    have h := hw _ (mapLookup_mem _ _ _ hl)
    exact ⟨h.1, h.2, hw⟩

theorem MeshChannelsM.ensure_channel_wt (s : MeshChannelsM) (k : ChannelKeyType)
    (v : ChannelValueType) (name : String) (hw : s.WellTagged) :
    ∀ id s', s.ensure_channel k v name = .ok (id, s') → s'.WellTagged := by
  intro id s' h
  obtain ⟨h1, h2, h3⟩ := s.entryOrDefault_spec k v hw
  simp only [MeshChannelsM.ensure_channel] at h
  split at h
  · exact absurd h (by simp)
  · simp only [MRes.ok.injEq, Prod.mk.injEq] at h
    rw [← h.2]
    exact WellTagged_mapInsert _ k v _ h3 rfl rfl

theorem MeshChannelsM.create_channel_wt (s : MeshChannelsM) (k : ChannelKeyType)
    (v : ChannelValueType) (name : String) (hw : s.WellTagged) :
    ∀ id s', s.create_channel k v name = .ok (id, s') → s'.WellTagged := by
  intro id s' h
  obtain ⟨h1, h2, h3⟩ := s.entryOrDefault_spec k v hw
  simp only [MeshChannelsM.create_channel] at h
  split at h
  · exact absurd h (by simp)
  · split at h
    · exact absurd h (by simp)
    · simp only [MRes.ok.injEq, Prod.mk.injEq] at h
      rw [← h.2]
      exact WellTagged_mapInsert _ k v _ h3 rfl rfl

theorem MeshChannelsM.remove_channel_wt (s : MeshChannelsM) (k : ChannelKeyType)
    (v : ChannelValueType) (id : GenKey) (hw : s.WellTagged) :
    ∀ ch s', s.remove_channel k v id = .ok (ch, s') → s'.WellTagged := by
  intro ch s' h
  simp only [MeshChannelsM.remove_channel] at h
  split at h
  · exact absurd h (by simp)
  · split at h
    · exact absurd h (by simp)
    · split at h
      · exact absurd h (by simp)
      · simp only [MRes.ok.injEq, Prod.mk.injEq] at h
        rw [← h.2]
        exact WellTagged_mapInsert _ k v _ hw rfl rfl

theorem MeshChannelsM.read_channel_wt (s : MeshChannelsM) (k : ChannelKeyType)
    (v : ChannelValueType) (id : GenKey) (hw : s.WellTagged) :
    ∀ ch s', s.read_channel k v id = .ok (ch, s') → s'.WellTagged := by
  intro ch s' h
  simp only [MeshChannelsM.read_channel] at h
  split at h
  · exact absurd h (by simp)
  · split at h
    · exact absurd h (by simp)
    · split at h
      · exact absurd h (by simp)
      · simp only [MRes.ok.injEq, Prod.mk.injEq] at h
        rw [← h.2]
        exact WellTagged_mapInsert _ k v _ hw rfl rfl

theorem MeshChannelsM.write_channel_wt (s : MeshChannelsM) (k : ChannelKeyType)
    (v : ChannelValueType) (id : GenKey) (hw : s.WellTagged) :
    ∀ ch s', s.write_channel k v id = .ok (ch, s') → s'.WellTagged := by
  intro ch s' h
  simp only [MeshChannelsM.write_channel] at h
  split at h
  · exact absurd h (by simp)
  · split at h
    · exact absurd h (by simp)
    · split at h
      · exact absurd h (by simp)
      · simp only [MRes.ok.injEq, Prod.mk.injEq] at h
        rw [← h.2]
        exact WellTagged_mapInsert _ k v _ hw rfl rfl

theorem MeshChannelsM.modifyChannel_wt (s : MeshChannelsM) (k : ChannelKeyType)
    (v : ChannelValueType) (id : GenKey)
    (f : ChannelM (ValueT v) → ChannelM (ValueT v)) (hw : s.WellTagged) :
    (s.modifyChannel k v id f).WellTagged := by
  unfold MeshChannelsM.modifyChannel
  split
  · exact hw
  · split
    · exact hw
    · exact WellTagged_mapInsert _ k v _ hw rfl rfl

theorem MeshChannelsM.releaseRead_wt (s : MeshChannelsM) (k : ChannelKeyType)
    (v : ChannelValueType) (id : GenKey) (hw : s.WellTagged) :
    (s.releaseRead k v id).WellTagged := by
  unfold MeshChannelsM.releaseRead
  split
  · exact hw
  · rename_i e heq
    have ht := hw _ (mapLookup_mem _ _ _ heq)
    exact WellTagged_mapInsert _ k v _ hw ht.1 ht.2

theorem MeshChannelsM.releaseWrite_wt (s : MeshChannelsM) (k : ChannelKeyType)
    (v : ChannelValueType) (id : GenKey) (hw : s.WellTagged) :
    (s.releaseWrite k v id).WellTagged := by
  unfold MeshChannelsM.releaseWrite
  split
  · exact hw
  · rename_i e heq
    have ht := hw _ (mapLookup_mem _ _ _ heq)
    exact WellTagged_mapInsert _ k v _ hw ht.1 ht.2

theorem MeshChannelsM.group_or_default_wt (s : MeshChannelsM) (k : ChannelKeyType)
    (v : ChannelValueType) (hw : s.WellTagged) :
    ∀ s', s.group_or_default k v = .ok s' → s'.WellTagged := by
  intro s' h
  obtain ⟨h1, h2, h3⟩ := s.entryOrDefault_spec k v hw
  simp only [MeshChannelsM.group_or_default] at h
  split at h
  · exact absurd h (by simp)
  · simp only [MRes.ok.injEq] at h
    rw [← h]
    exact h3

theorem MeshChannelsM.ensure_group_dyn_wt (s : MeshChannelsM) (k : ChannelKeyType)
    (v : ChannelValueType) (hw : s.WellTagged) :
    ∀ s', s.ensure_group_dyn k v = .ok s' → s'.WellTagged := by
  cases k <;> cases v <;> exact fun s' h => s.group_or_default_wt _ _ hw s' h

theorem MeshChannelsM.ensure_channel_dyn_wt (s : MeshChannelsM) (k : ChannelKeyType)
    (v : ChannelValueType) (name : String) (hw : s.WellTagged) :
    ∀ id s', s.ensure_channel_dyn k v name = .ok (id, s') → s'.WellTagged := by
  intro id s' h
  simp only [MeshChannelsM.ensure_channel_dyn] at h
  split at h
  · rename_i s1 hg
    have hw1 := s.ensure_group_dyn_wt k v hw s1 hg
    split at h
    · exact absurd h (by simp)
    · rename_i e heq
      have ht := hw1 _ (mapLookup_mem _ _ _ heq)
      simp only [MRes.ok.injEq, Prod.mk.injEq] at h
      rw [← h.2]
      exact WellTagged_mapInsert _ k v _ hw1 ht.1 ht.2
  · exact absurd h (by simp)
  · exact absurd h (by simp)

theorem MeshChannelsM.dyn_read_channel_by_name_wt (s : MeshChannelsM)
    (k : ChannelKeyType) (v : ChannelValueType) (name : String) (hw : s.WellTagged) :
    ∀ c s', s.dyn_read_channel_by_name k v name = .ok (c, s') → s'.WellTagged := by
  intro c s' h
  simp only [MeshChannelsM.dyn_read_channel_by_name] at h
  split at h
  · exact absurd h (by simp)
  · rename_i e heq
    have ht := hw _ (mapLookup_mem _ _ _ heq)
    split at h
    · exact absurd h (by simp)
    · split at h
      · simp only [MRes.ok.injEq, Prod.mk.injEq] at h
        rw [← h.2]
        exact WellTagged_mapInsert _ k v _ hw ht.1 ht.2
      · exact absurd h (by simp)
      · exact absurd h (by simp)

theorem MeshChannelsM.dyn_write_channel_by_name_wt (s : MeshChannelsM)
    (k : ChannelKeyType) (v : ChannelValueType) (name : String) (hw : s.WellTagged) :
    ∀ c s', s.dyn_write_channel_by_name k v name = .ok (c, s') → s'.WellTagged := by
  intro c s' h
  simp only [MeshChannelsM.dyn_write_channel_by_name] at h
  split at h
  · exact absurd h (by simp)
  · rename_i e heq
    have ht := hw _ (mapLookup_mem _ _ _ heq)
    split at h
    · exact absurd h (by simp)
    · split at h
      · simp only [MRes.ok.injEq, Prod.mk.injEq] at h
        rw [← h.2]
        exact WellTagged_mapInsert _ k v _ hw ht.1 ht.2
      · exact absurd h (by simp)
      · exact absurd h (by simp)

theorem MeshChannelsM.applyOp_wt (s : MeshChannelsM) (op : StoreOp) (hw : s.WellTagged) :
    (s.applyOp op).WellTagged := by
  cases op with
  | ensure k v name =>
    cases hres : s.ensure_channel k v name with
    | ok q =>
      have h := s.ensure_channel_wt k v name hw q.1 q.2 hres
      simpa [MeshChannelsM.applyOp, hres] using h
    | err e => simpa [MeshChannelsM.applyOp, hres] using hw
    | panicked => simpa [MeshChannelsM.applyOp, hres] using hw
  | create k v name =>
    cases hres : s.create_channel k v name with
    | ok q =>
      have h := s.create_channel_wt k v name hw q.1 q.2 hres
      simpa [MeshChannelsM.applyOp, hres] using h
    | err e => simpa [MeshChannelsM.applyOp, hres] using hw
    | panicked => simpa [MeshChannelsM.applyOp, hres] using hw
  | remove k v id =>
    cases hres : s.remove_channel k v id with
    | ok q =>
      have h := s.remove_channel_wt k v id hw q.1 q.2 hres
      simpa [MeshChannelsM.applyOp, hres] using h
    | err e => simpa [MeshChannelsM.applyOp, hres] using hw
    | panicked => simpa [MeshChannelsM.applyOp, hres] using hw
  | readCh k v id =>
    cases hres : s.read_channel k v id with
    | ok q =>
      have h := s.read_channel_wt k v id hw q.1 q.2 hres
      simpa [MeshChannelsM.applyOp, hres] using h
    | err e => simpa [MeshChannelsM.applyOp, hres] using hw
    | panicked => simpa [MeshChannelsM.applyOp, hres] using hw
  | writeCh k v id =>
    cases hres : s.write_channel k v id with
    | ok q =>
      have h := s.write_channel_wt k v id hw q.1 q.2 hres
      simpa [MeshChannelsM.applyOp, hres] using h
    | err e => simpa [MeshChannelsM.applyOp, hres] using hw
    | panicked => simpa [MeshChannelsM.applyOp, hres] using hw
  | modifyCh k v id f =>
    simpa [MeshChannelsM.applyOp] using s.modifyChannel_wt k v id f hw
  | releaseRead k v id =>
    simpa [MeshChannelsM.applyOp] using s.releaseRead_wt k v id hw
  | releaseWrite k v id =>
    simpa [MeshChannelsM.applyOp] using s.releaseWrite_wt k v id hw
  | ensureGroupDyn k v =>
    cases hres : s.ensure_group_dyn k v with
    | ok s1 =>
      have h := s.ensure_group_dyn_wt k v hw s1 hres
      simpa [MeshChannelsM.applyOp, hres] using h
    | err e => simpa [MeshChannelsM.applyOp, hres] using hw
    | panicked => simpa [MeshChannelsM.applyOp, hres] using hw
  | ensureChannelDyn k v name =>
    cases hres : s.ensure_channel_dyn k v name with
    | ok q =>
      have h := s.ensure_channel_dyn_wt k v name hw q.1 q.2 hres
      simpa [MeshChannelsM.applyOp, hres] using h
    | err e => simpa [MeshChannelsM.applyOp, hres] using hw
    | panicked => simpa [MeshChannelsM.applyOp, hres] using hw
  | dynReadByName k v name =>
    cases hres : s.dyn_read_channel_by_name k v name with
    | ok q =>
      have h := s.dyn_read_channel_by_name_wt k v name hw q.1 q.2 hres
      simpa [MeshChannelsM.applyOp, hres] using h
    | err e => simpa [MeshChannelsM.applyOp, hres] using hw
    | panicked => simpa [MeshChannelsM.applyOp, hres] using hw
  | dynWriteByName k v name =>
    cases hres : s.dyn_write_channel_by_name k v name with
    | ok q =>
      have h := s.dyn_write_channel_by_name_wt k v name hw q.1 q.2 hres
      simpa [MeshChannelsM.applyOp, hres] using h
    | err e => simpa [MeshChannelsM.applyOp, hres] using hw
    | panicked => simpa [MeshChannelsM.applyOp, hres] using hw

theorem MeshChannelsM.runOps_wt (ops : List StoreOp) :
    ∀ s : MeshChannelsM, s.WellTagged → (s.runOps ops).WellTagged := by
  induction ops with
  | nil => intro s h; exact h
  | cons op rest ih =>
    intro s h
    exact ih _ (s.applyOp_wt op h)

/-- Claim C1: in every store state reachable from `MeshChannels::default()`
by any sequence of store operations, the type-erased entry stored under a tag
pair `(K::key_type(), V::value_type())` is always the `ChannelGroup<K, V>`
instantiation carrying exactly those tags, so the downcast performed by every
access at that same tag pair succeeds and the `unreachable!` branch of
`downcast`/`downcast_mut` is never reached. -/
theorem C1_downcast_safe (s : MeshChannelsM) (h : s.Reachable) :
    s.WellTagged
    ∧ ∀ (k : ChannelKeyType) (v : ChannelValueType) (e : ErasedGroup),
        mapLookup s.channels (k, v) = some e → (e.downcast k v).isSome = true := by
  obtain ⟨ops, rfl⟩ := h
  have hw : (MeshChannelsM.default.runOps ops).WellTagged :=
    MeshChannelsM.runOps_wt ops MeshChannelsM.default
      (fun p hp => absurd hp (List.not_mem_nil p))
  refine ⟨hw, ?_⟩
  intro k v e hl
  have ht := hw _ (mapLookup_mem _ _ _ hl)
  exact (ErasedGroup.downcast_isSome_iff e k v).mpr ⟨ht.1, ht.2⟩

/-- The operations of the concrete C1 instance: a typed ensure, a dynamic
ensure, and a typed create, touching three different groups. -/
def c1Ops : List StoreOp :=
  [.ensure .VertexId .Vec3 "position",
   .ensureChannelDyn .FaceId .f32 "mask",
   .create .VertexId .Vec4 "color"]

/-- Concrete instance of C1 on a store reached by three operations. -/
theorem C1_downcast_safe_witness :
    MeshChannelsM.Reachable (MeshChannelsM.default.runOps c1Ops)
    ∧ ((MeshChannelsM.default.runOps c1Ops).WellTagged
      ∧ ∀ (k : ChannelKeyType) (v : ChannelValueType) (e : ErasedGroup),
          mapLookup (MeshChannelsM.default.runOps c1Ops).channels (k, v) = some e →
          (e.downcast k v).isSome = true) :=
  ⟨⟨c1Ops, rfl⟩, C1_downcast_safe _ ⟨c1Ops, rfl⟩⟩

/-! ### Claim C10 -/

/-- A key is stale in a slot map: its slot exists but has moved past the
key's generation (the slot was removed, and possibly reused, after the key
was handed out). -/
def SlotMapM.Stale (m : SlotMapM α) (k : GenKey) : Prop :=
  ∃ sl, m.slots[k.idx]? = some sl ∧ k.version < sl.version

theorem SlotMapM.get_of_stale (m : SlotMapM α) (k : GenKey) (h : m.Stale k) :
    m.get k = none := by
  obtain ⟨sl, hs, hv⟩ := h
  unfold SlotMapM.get
  rw [hs]
  have hne : sl.version ≠ k.version := by omega
  simp [hne]

theorem SlotMapM.remove_stale (m : SlotMapM α) (k : GenKey) (a : α) (m' : SlotMapM α)
    (h : m.remove k = some (a, m')) : m'.Stale k := by
  unfold SlotMapM.remove at h
  split at h
  · rename_i sl hs
    split at h
    · rename_i hveq
      split at h
      · rename_i a0 hval
        simp only [Option.some_inj, Prod.mk.injEq] at h
        rw [← h.2]
        have hlt : k.idx < m.slots.length := by
          by_contra hge
          rw [List.getElem?_eq_none (Nat.le_of_not_lt hge)] at hs
          exact Option.noConfusion hs
        refine ⟨⟨sl.version + 1, none⟩, List.getElem?_set_self hlt, ?_⟩
        show k.version < sl.version + 1
        omega
      · exact absurd h (by simp)
    · exact absurd h (by simp)
  · exact absurd h (by simp)

theorem SlotMapM.insert_free_nil (m : SlotMapM α) (a : α) (h : m.free = []) :
    m.insert a = (⟨m.slots.length, 1⟩, ⟨m.slots ++ [⟨1, some a⟩], []⟩) := by
  simp only [SlotMapM.insert, h]

theorem SlotMapM.insert_free_cons_some (m : SlotMapM α) (a : α) (i : Nat)
    (rest : List Nat) (si : SlotM α) (h : m.free = i :: rest)
    (hsi : m.slots[i]? = some si) :
    m.insert a = (⟨i, si.version + 1⟩,
      ⟨m.slots.set i ⟨si.version + 1, some a⟩, rest⟩) := by
  simp only [SlotMapM.insert, h, hsi]

theorem SlotMapM.insert_free_cons_none (m : SlotMapM α) (a : α) (i : Nat)
    (rest : List Nat) (h : m.free = i :: rest) (hsi : m.slots[i]? = none) :
    m.insert a = (⟨m.slots.length, 1⟩, ⟨m.slots ++ [⟨1, some a⟩], rest⟩) := by
  simp only [SlotMapM.insert, h, hsi]

theorem SlotMapM.insert_stale (m : SlotMapM α) (a : α) (k : GenKey) (hst : m.Stale k) :
    (m.insert a).2.Stale k ∧ (m.insert a).1 ≠ k := by
  obtain ⟨sl, hs, hv⟩ := hst
  have hlt : k.idx < m.slots.length := by
    by_contra hge
    rw [List.getElem?_eq_none (Nat.le_of_not_lt hge)] at hs
    exact Option.noConfusion hs
  cases hf : m.free with
  | nil =>
    rw [SlotMapM.insert_free_nil m a hf]
    constructor
    · exact ⟨sl, by rw [List.getElem?_append, if_pos hlt]; exact hs, hv⟩
    · intro he
      have h1 : m.slots.length = k.idx := congrArg GenKey.idx he
      omega
  | cons i rest =>
    cases hsi : m.slots[i]? with
    | some si =>
      rw [SlotMapM.insert_free_cons_some m a i rest si hf hsi]
      constructor
      · by_cases hik : i = k.idx
        · subst hik
          rw [hs] at hsi
          have hsl : sl = si := Option.some_inj.mp hsi
          have hveq : sl.version = si.version := congrArg SlotM.version hsl
          refine ⟨⟨si.version + 1, some a⟩, List.getElem?_set_self hlt, ?_⟩
          show k.version < si.version + 1
          omega
        · exact ⟨sl, by rw [List.getElem?_set_ne hik]; exact hs, hv⟩
      · intro he
        have h1 : i = k.idx := congrArg GenKey.idx he
        have h2 : si.version + 1 = k.version := congrArg GenKey.version he
        rw [h1, hs] at hsi
        have h3 : sl = si := Option.some_inj.mp hsi
        have h4 : sl.version = si.version := congrArg SlotM.version h3
        omega
    | none =>
      rw [SlotMapM.insert_free_cons_none m a i rest hf hsi]
      constructor
      · exact ⟨sl, by rw [List.getElem?_append, if_pos hlt]; exact hs, hv⟩
      · intro he
        have h1 : m.slots.length = k.idx := congrArg GenKey.idx he
        omega

/-- No name of the group refers to the key. -/
def ChannelGroupM.NoRef (g : ChannelGroupM v) (k : GenKey) : Prop :=
  ∀ p ∈ g.channel_names, p.2 ≠ k

theorem ChannelGroupM.remove_channel_stale {v : ChannelValueType} (g : ChannelGroupM v)
    (id : GenKey) (ch : ChannelM (ValueT v)) (g1 : ChannelGroupM v)
    (h : g.remove_channel id = .ok (ch, g1)) :
    g1.channels.Stale id ∧ g1.NoRef id := by
  simp only [ChannelGroupM.remove_channel] at h
  split at h
  · rename_i cell q heq
    simp only [Except.ok.injEq, Prod.mk.injEq] at h
    rw [← h.2]
    constructor
    · exact SlotMapM.remove_stale g.channels id cell q heq
    · intro p hp
      have hmem := List.of_mem_filter hp
      simpa using hmem
  · exact absurd h (by simp)

/-- `ensure_channel` applied to each name in turn, collecting the returned
ids. -/
def ChannelGroupM.ensureMany (g : ChannelGroupM v) :
    List String → (List GenKey × ChannelGroupM v)
  | [] => ([], g)
  | n :: ns =>
    ((g.ensure_channel n).1 :: ((g.ensure_channel n).2.ensureMany ns).1,
      ((g.ensure_channel n).2.ensureMany ns).2)

theorem ChannelGroupM.ensure_stale {v : ChannelValueType} (g : ChannelGroupM v)
    (name : String) (k : GenKey) (hst : g.channels.Stale k) (hnr : g.NoRef k) :
    (g.ensure_channel name).2.channels.Stale k
    ∧ (g.ensure_channel name).2.NoRef k
    ∧ (g.ensure_channel name).1 ≠ k := by
  unfold ChannelGroupM.ensure_channel
  cases hb : bimapGetLeft g.channel_names name with
  | some id =>
    refine ⟨hst, hnr, ?_⟩
    unfold bimapGetLeft at hb
    cases hfind : g.channel_names.find? (fun p => p.1 = name) with
    | none => rw [hfind] at hb; exact absurd hb (by simp)
    | some p0 =>
      rw [hfind] at hb
      have hb' : p0.2 = id := by simpa using hb
      have hmem := List.mem_of_find?_eq_some hfind
      rw [← hb']
      exact hnr p0 hmem
  | none =>
    have hi := SlotMapM.insert_stale g.channels (0, ChannelM.empty (ValueT.dflt v)) k hst
    refine ⟨hi.1, ?_, hi.2⟩
    intro p hp
    simp only [bimapInsert] at hp
    rcases List.mem_cons.mp hp with h1 | h2
    · rw [h1]
      exact hi.2
    · exact hnr p (List.mem_of_mem_filter h2)

theorem ChannelGroupM.ensureMany_stale {v : ChannelValueType} (names : List String) :
    ∀ (g : ChannelGroupM v) (k : GenKey), g.channels.Stale k → g.NoRef k →
    (g.ensureMany names).2.channels.Stale k
    ∧ (g.ensureMany names).2.NoRef k
    ∧ k ∉ (g.ensureMany names).1 := by
  induction names with
  | nil =>
    intro g k h1 h2
    exact ⟨h1, h2, by simp [ChannelGroupM.ensureMany]⟩
  | cons n ns ih =>
    intro g k h1 h2
    have he := ChannelGroupM.ensure_stale g n k h1 h2
    have hr := ih (g.ensure_channel n).2 k he.1 he.2.1
    refine ⟨hr.1, hr.2.1, ?_⟩
    simp only [ChannelGroupM.ensureMany, List.mem_cons, not_or]
    exact ⟨fun hk => he.2.2 hk.symm, hr.2.2⟩

theorem ChannelGroupM.read_channel_notFound {v : ChannelValueType} (g : ChannelGroupM v)
    (id : GenKey) (h : g.channels.get id = none) :
    g.read_channel id = .error .NotFound := by
  unfold ChannelGroupM.read_channel
  rw [h]

theorem ChannelGroupM.write_channel_notFound {v : ChannelValueType} (g : ChannelGroupM v)
    (id : GenKey) (h : g.channels.get id = none) :
    g.write_channel id = .error .NotFound := by
  unfold ChannelGroupM.write_channel
  rw [h]

/-- Claim C10: channel ids are generational and never reused.  After
`remove_channel(id)` succeeds, every later `read_channel(id)` or
`write_channel(id)` with the stale id fails with the not-found error — even
after arbitrarily many new channels are created in the group — and the stale
id never equals the id of any newly created channel. -/
theorem C10_stale_ids (v : ChannelValueType) (g : ChannelGroupM v) (id : GenKey)
    (ch : ChannelM (ValueT v)) (g1 : ChannelGroupM v) (names : List String)
    (h : g.remove_channel id = .ok (ch, g1)) :
    (g1.ensureMany names).2.read_channel id = .error .NotFound
    ∧ (g1.ensureMany names).2.write_channel id = .error .NotFound
    ∧ id ∉ (g1.ensureMany names).1 := by
  have hsp := ChannelGroupM.remove_channel_stale g id ch g1 h
  have hm := ChannelGroupM.ensureMany_stale names g1 id hsp.1 hsp.2
  exact ⟨ChannelGroupM.read_channel_notFound _ _ (SlotMapM.get_of_stale _ _ hm.1),
    ChannelGroupM.write_channel_notFound _ _ (SlotMapM.get_of_stale _ _ hm.1),
    hm.2.2⟩

/-- Concrete instance of C10: create "a", remove it, then create "b" and "c";
the stale id `(0, 1)` is rejected by reads and writes and differs from every
new id (even though slot 0 is reused for "b"). -/
theorem C10_stale_ids_witness :
    ((ChannelGroupM.empty .f32).ensure_channel "a").2.remove_channel ⟨0, 1⟩
      = .ok (ChannelM.empty (ValueT.dflt .f32),
        (⟨[], ⟨[⟨2, none⟩], [0]⟩⟩ : ChannelGroupM .f32))
    ∧ (((⟨[], ⟨[⟨2, none⟩], [0]⟩⟩ : ChannelGroupM .f32).ensureMany
        ["b", "c"]).2.read_channel ⟨0, 1⟩ = .error .NotFound
      ∧ ((⟨[], ⟨[⟨2, none⟩], [0]⟩⟩ : ChannelGroupM .f32).ensureMany
          ["b", "c"]).2.write_channel ⟨0, 1⟩ = .error .NotFound
      ∧ (⟨0, 1⟩ : GenKey) ∉ ((⟨[], ⟨[⟨2, none⟩], [0]⟩⟩ : ChannelGroupM .f32).ensureMany
          ["b", "c"]).1) := by
  have hrem : ((ChannelGroupM.empty .f32).ensure_channel "a").2.remove_channel ⟨0, 1⟩
      = .ok (ChannelM.empty (ValueT.dflt .f32),
        (⟨[], ⟨[⟨2, none⟩], [0]⟩⟩ : ChannelGroupM .f32)) := by rfl
  exact ⟨hrem, C10_stale_ids .f32 _ ⟨0, 1⟩ _ _ ["b", "c"] hrem⟩
